import Mathlib

/-!
# The Pintos system-call layer (`userprog/syscall.c`)

A shallow embedding of `src/userprog/syscall.c` and of the data declared in
`src/userprog/process.h`.

* C `int` values are `Int`; `unsigned` values and pointers are `Nat`, read as 32-bit
  patterns (`to_int`, `to_unsigned` convert, address arithmetic is taken `% 2 ^ 32`).
* Kernel code is a function `World → Outcome α`: it either returns a value, or it stops
  (the thread exits, the kernel takes a page fault, the thread re-acquires a lock it
  holds, the machine powers off).
* Every world carries a trace of the observable actions the current thread performed,
  in program order, so that "validated before it is read" is a statement on the trace.
* Code that `syscall.c` calls but that is not part of the sources at hand is either a
  field of `Env` (an arbitrary collaborator) or a definition marked as modelled.
-/

namespace Pintos

/-! ## Machine integers -/

/-- The C `int` denoted by a 32-bit pattern (two's complement). -/
def to_int (n : Nat) : Int :=
  if n % 2 ^ 32 < 2 ^ 31 then ((n % 2 ^ 32 : Nat) : Int) else ((n % 2 ^ 32 : Nat) : Int) - 2 ^ 32

/-- The 32-bit pattern of a C `int` (the conversion to `unsigned`, `uint32_t` or a pointer). -/
def to_unsigned (i : Int) : Nat := (i % 2 ^ 32).toNat

/-! ## Data model -/

/-- Modelled from the spec: the load outcome of a child, the three values `load_status` is
compared with in `exec`. The constants `NOT_LOADED`, `LOAD_SUCCESS`, `LOAD_FAIL` are declared in
`threads/thread.h`, which is not among the sources; the spec names the three states PENDING,
SUCCESS and FAILED. -/
inductive load_state where
  | NOT_LOADED
  | LOAD_SUCCESS
  | LOAD_FAIL
  deriving DecidableEq, Repr

/-- Modelled from the spec: the child process record, `struct child_process`, declared in
`threads/thread.h`, which is not among the sources. These are the fields `syscall.c` touches
(`load_status`, `load_sema`, `exit_status`) and the pid of the child, by which
`get_child_process` searches. -/
structure child_process where
  pid : Int
  load_status : load_state
  load_sema : Nat
  exit_status : Int
  deriving DecidableEq, Repr

/-- Descriptor table entry, `struct process_file` of `process.h` (the list link is the position in
the list `World.files`). -/
structure process_file where
  file : Nat
  fd : Int
  deriving DecidableEq, Repr

/-- Modelled from the spec: the trap frame, `struct intr_frame` of `threads/interrupt.h`, which is
not among the sources. `syscall.c` uses the saved stack pointer `esp` and the return-value slot
`eax`; the other saved registers are kept, in order, in `regs`. -/
structure intr_frame where
  eax : Nat
  esp : Nat
  regs : List Nat
  deriving DecidableEq, Repr

/-- Observable actions of the current thread, in program order. -/
inductive Event where
  /-- The kernel reads `size` bytes at virtual address `addr`. -/
  | load (addr size : Nat)
  /-- The kernel writes `size` bytes at virtual address `addr`. -/
  | store (addr size : Nat)
  /-- The page table of the current thread is looked up at `addr`. -/
  | pagedir_get_page (addr : Nat)
  | lock_acquire
  | lock_release
  /-- A call of a collaborator function with the given argument words. -/
  | call (fn : String) (args : List Nat)
  /-- The bytes `putbuf` wrote to the console in one call. -/
  | putbuf (bytes : List Nat)
  /-- A line written to the console by `printf`. -/
  | printf (line : String)
  deriving DecidableEq, Repr

/-- The machine as the current thread sees it: the fields of `struct thread` that `syscall.c`
reads, the address space of the thread, the kernel data `syscall.c` works on, and the trace of
what the thread did. Memory is addressed virtually; that a user page is visible a second time at
a kernel address is not represented. -/
structure World where
  /-- The field `name` of `thread_current ()`. -/
  name : String
  /-- The field `parent` of `thread_current ()`. -/
  parent : Nat
  /-- The field `child_process` of `thread_current ()`: the address of the record the parent
  keeps about this thread, `0` for `NULL`. -/
  child_process : Nat
  /-- The page table `t->pagedir`: user page number to the kernel address of its frame. -/
  pagedir : Nat → Option Nat
  /-- Which kernel virtual addresses (at or above `PHYS_BASE`) are present. -/
  kernel_mapped : Nat → Bool
  /-- The byte stored at each virtual address (meaningful where the address is present). -/
  mem : Nat → Nat
  /-- The child records, by address. -/
  records : Nat → Pintos.child_process
  /-- The registry of the current thread: addresses of the records of its children. -/
  children : List Nat
  /-- The descriptor table of the current thread. -/
  files : List process_file
  /-- The next descriptor number of the current thread. -/
  fd : Int
  /-- Whether the current thread holds `file_lock`. -/
  file_lock_held : Bool
  /-- What the current thread has done so far. -/
  trace : List Event

/-- Ways in which kernel code does not return to its caller. -/
inductive Stop where
  /-- The thread ended in `thread_exit ()`, called from `exit (status)`. -/
  | exited (status : Int)
  /-- The kernel accessed the virtual address `addr`, which is not present: a page fault
  in kernel context. -/
  | fault (addr : Nat)
  /-- The thread called `lock_acquire` on a lock it already holds. -/
  | relock
  /-- The machine was powered off by `shutdown_power_off ()`. -/
  | poweroff
  deriving DecidableEq, Repr

/-- Result of running kernel code. -/
inductive Outcome (α : Type) where
  | ret (a : α) (w : World)
  | stop (s : Stop) (w : World)

/-- The world in which the code returned or stopped. -/
def Outcome.world {α : Type} : Outcome α → World
  | .ret _ w => w
  | .stop _ w => w

/-- The returned value, if the code returned. -/
def Outcome.value {α : Type} : Outcome α → Option α
  | .ret a _ => some a
  | .stop _ _ => none

/-- The reason the code stopped, if it did not return. -/
def Outcome.stopped {α : Type} : Outcome α → Option Stop
  | .ret _ _ => none
  | .stop s _ => some s

/-- Kernel code computing an `α`. -/
def K (α : Type) : Type := World → Outcome α

/-- Returning a value. -/
def K.pure {α : Type} (a : α) : K α := fun w => .ret a w

/-- Sequencing: the rest runs only when the first part returns. -/
def K.bind {α β : Type} (m : K α) (f : α → K β) : K β := fun w =>
  match m w with
  | .ret a w1 => f a w1
  | .stop s w1 => .stop s w1

instance : Monad K where
  pure := K.pure
  bind := K.bind

/-- The constants and the collaborators `syscall.c` is compiled against and that are not
among the sources. -/
structure Env where
  /-- The user/kernel boundary of `threads/vaddr.h`. -/
  PHYS_BASE : Nat
  /-- The page size of `threads/vaddr.h`. -/
  PGSIZE : Nat
  SYS_HALT : Int
  SYS_EXIT : Int
  SYS_EXEC : Int
  SYS_WAIT : Int
  SYS_CREATE : Int
  SYS_REMOVE : Int
  SYS_OPEN : Int
  SYS_FILESIZE : Int
  SYS_READ : Int
  SYS_WRITE : Int
  SYS_SEEK : Int
  SYS_TELL : Int
  SYS_CLOSE : Int
  /-- The predicate `parent_alive`. -/
  parent_alive : World → Nat → Bool
  /-- The word a collaborator function returns when called with these argument words. -/
  result : String → List Nat → World → Nat
  /-- The world a collaborator function leaves behind. -/
  effect : String → List Nat → World → World

/-! ## Primitive actions -/

/-- Append an action to the trace. -/
def emit (e : Event) : K Unit := fun w => .ret () { w with trace := w.trace ++ [e] }

/-- The current world, for reading the fields of `thread_current ()`. -/
def thread_current : K World := fun w => .ret w w

/-- Call of a collaborator: the call is traced, the collaborator decides the returned word and
the state it leaves; it cannot rewrite the trace. -/
def call (k : Env) (fn : String) (args : List Nat) : K Nat := fun w =>
  .ret (k.result fn args w)
    { k.effect fn args w with trace := w.trace ++ [Event.call fn args] }

/-- Whether the virtual address `a` is present for the kernel running in the current thread:
user addresses are translated by the page table of the thread. -/
def present (k : Env) (w : World) (a : Nat) : Bool :=
  if a < k.PHYS_BASE then (w.pagedir (a / k.PGSIZE)).isSome else w.kernel_mapped a

/-- One byte read by the kernel; a page fault when the address is not present. -/
def load_byte (k : Env) (a : Nat) : K Nat := fun w =>
  if present k w a then .ret (w.mem a % 256) w else .stop (.fault a) w

/-- Dereference of an `int *`: four bytes, little endian. -/
def load_word (k : Env) (a : Nat) : K Nat := do
  emit (.load a 4)
  let b0 ← load_byte k a
  let b1 ← load_byte k ((a + 1) % 2 ^ 32)
  let b2 ← load_byte k ((a + 2) % 2 ^ 32)
  let b3 ← load_byte k ((a + 3) % 2 ^ 32)
  pure (b0 + 256 * b1 + 65536 * b2 + 16777216 * b3)

/-- One byte written by the kernel; a page fault when the address is not present. -/
def store_byte (k : Env) (a v : Nat) : K Unit := fun w =>
  if present k w a then .ret () { w with mem := fun x => if x = a then v % 256 else w.mem x }
  else .stop (.fault a) w

/-- The access check of the memory unit: a page fault when the address is not present. -/
def probe (k : Env) (a : Nat) : K Unit := fun w =>
  if present k w a then .ret () w else .stop (.fault a) w

/-- Assignment through an `int *`: four bytes, little endian; nothing is written when one of the
four addresses is not present. -/
def store_word (k : Env) (a v : Nat) : K Unit := do
  emit (.store a 4)
  probe k a
  probe k ((a + 1) % 2 ^ 32)
  probe k ((a + 2) % 2 ^ 32)
  probe k ((a + 3) % 2 ^ 32)
  store_byte k a v
  store_byte k ((a + 1) % 2 ^ 32) (v / 256)
  store_byte k ((a + 2) % 2 ^ 32) (v / 65536)
  store_byte k ((a + 3) % 2 ^ 32) (v / 16777216)

/-- Modelled from the spec: `pagedir_get_page (t->pagedir, addr)` of `userprog/pagedir.c`, which
is not among the sources: the kernel address the page table maps `addr` to, `none` (for `NULL`)
when the page of `addr` is not mapped. -/
def pagedir_get_page (k : Env) (addr : Nat) : K (Option Nat) := fun w =>
  .ret ((w.pagedir (addr / k.PGSIZE)).map (fun frame => frame + addr % k.PGSIZE))
    { w with trace := w.trace ++ [Event.pagedir_get_page addr] }

/-- Modelled from the spec: `is_user_vaddr` of `threads/vaddr.h`, which is not among the sources:
an address is a user address when it lies below the user/kernel boundary. -/
def is_user_vaddr (k : Env) (addr : Nat) : Bool := decide (addr < k.PHYS_BASE)

/-- Modelled from the spec: `thread_exit ()` of `threads/thread.c`, which is not among the
sources: the current thread ends, the call does not return. `status` records the argument of the
`exit` that called it. -/
def thread_exit {α : Type} (status : Int) : K α := fun w => .stop (.exited status) w

/-- The call `printf ("%s: exit(%d)\n", name, status)`: one line on the console, the status in
decimal with a minus sign when negative. -/
def printf_exit (name : String) (status : Int) : K Unit :=
  emit (.printf (name ++ ": exit(" ++ toString status ++ ")\n"))

/-! ## `syscall.c` -/

/-- `#define MAX_ARGS 3`. -/
def MAX_ARGS : Nat := 3

/-- `#define ERROR_CODE -1`. -/
def ERROR_CODE : Int := -1

/-- `#define USER_BOTTOM_ADDR ((void *) 0x08048000)`. -/
def USER_BOTTOM_ADDR : Nat := 0x08048000

/-- The assignment `t->child_process->exit_status = status`. -/
def set_exit_status (p : Nat) (status : Int) : K Unit := fun w =>
  .ret () { w with records := fun q =>
    if q = p then { w.records q with exit_status := status } else w.records q }

/-- `void exit (int status)`. -/
def exit (k : Env) (status : Int) : K Unit := do
  let t ← thread_current
  if k.parent_alive t t.parent && t.child_process != 0 then
    set_exit_status t.child_process status
  printf_exit t.name status
  thread_exit status

/-- `void check_address (const void *addr)`. -/
def check_address (k : Env) (addr : Nat) : K Unit := do
  if !is_user_vaddr k addr || decide (addr < USER_BOTTOM_ADDR) then
    exit k ERROR_CODE

/-- `void check_page_fault (const void *addr)`. -/
def check_page_fault (k : Env) (addr : Nat) : K Unit := do
  check_address k addr
  let ptr ← pagedir_get_page k addr
  if ptr.isNone then
    exit k ERROR_CODE

/-- `void get_arguments (struct intr_frame *f, int *arg, int count)`: the body of the loop for the
index `i`. The pointer `(int *) f->esp + i + 1` is the address `f->esp + 4 * (i + 1)` in 32
bits. -/
def get_arguments_body (k : Env) (f : intr_frame) (arg i : Nat) : K Unit := do
  let ptr := (f.esp + 4 * (i + 1)) % 2 ^ 32
  check_address k ptr
  let v ← load_word k ptr
  store_word k ((arg + 4 * i) % 2 ^ 32) v

/-- `void get_arguments (struct intr_frame *f, int *arg, int count)`: `n` rounds of the loop from
the index `i`. -/
def get_arguments_loop (k : Env) (f : intr_frame) (arg : Nat) : Nat → Nat → K Unit
  | 0, _, w => .ret () w
  | n + 1, i, w =>
    match get_arguments_body k f arg i w with
    | .ret _ w1 => get_arguments_loop k f arg n (i + 1) w1
    | .stop s w1 => .stop s w1

/-- `void get_arguments (struct intr_frame *f, int *arg, int count)`: `i` runs from `0` while
`i < count`. -/
def get_arguments (k : Env) (f : intr_frame) (arg : Nat) (count : Int) : K Unit :=
  get_arguments_loop k f arg count.toNat 0

/-- `void check_buffer (void *buf, unsigned size)`: `n` rounds of the loop from the running
pointer `buf_tmp`. -/
def check_buffer_loop (k : Env) : Nat → Nat → K Unit
  | 0, _, w => .ret () w
  | n + 1, buf_tmp, w =>
    match check_address k buf_tmp w with
    | .ret _ w1 => check_buffer_loop k n ((buf_tmp + 1) % 2 ^ 32) w1
    | .stop s w1 => .stop s w1

/-- `void check_buffer (void *buf, unsigned size)`. -/
def check_buffer (k : Env) (buf size : Nat) : K Unit :=
  check_buffer_loop k size buf

/-- `void check_string (const void *str)`: the body is empty. -/
def check_string (_str : Nat) : K Unit := pure ()

/-! ### Collaborators modelled from the spec -/

/-- Modelled from the spec: `STDIN_FILENO` of `lib/stdio.h`, which is not among the sources:
descriptor 0 is the console input. -/
def STDIN_FILENO : Int := 0

/-- Modelled from the spec: `STDOUT_FILENO` of `lib/stdio.h`, which is not among the sources:
descriptor 1 is the console output. -/
def STDOUT_FILENO : Int := 1

/-- Modelled from the spec: `lock_acquire (&file_lock)` of `threads/synch.c`, which is not among
the sources. One mutual-exclusion lock; a thread that acquires it while holding it never gets
past the call (the spec's self-deadlock). Waiting for another holder is not represented: the call
returns once the lock is free. -/
def lock_acquire : K Unit := fun w =>
  if w.file_lock_held then .stop .relock { w with trace := w.trace ++ [Event.lock_acquire] }
  else .ret () { w with trace := w.trace ++ [Event.lock_acquire], file_lock_held := true }

/-- Modelled from the spec: `lock_release (&file_lock)` of `threads/synch.c`, which is not among
the sources. -/
def lock_release : K Unit := fun w =>
  .ret () { w with trace := w.trace ++ [Event.lock_release], file_lock_held := false }

/-- Modelled from the spec: `get_child_process (pid)` of `process.c`, which is not among the
sources: the record with this pid in the registry of the calling process, `none` for `NULL`. -/
def get_child_process (pid : Int) : K (Option Nat) := fun w =>
  .ret (w.children.find? (fun p => decide ((w.records p).pid = pid)))
    { w with trace := w.trace ++ [Event.call "get_child_process" [to_unsigned pid]] }

/-- Modelled from the spec: `remove_child_process (cp)` of `process.c`, which is not among the
sources: the record is unlinked from the registry of the calling process (and freed). -/
def remove_child_process (cp : Nat) : K Unit := fun w =>
  .ret () { w with children := w.children.filter (fun p => decide (p ≠ cp)),
                   trace := w.trace ++ [Event.call "remove_child_process" [cp]] }

/-- Modelled from the spec: `process_add_file (f)` of `process.c`, which is not among the sources:
the next descriptor number of the calling process is given to the file, numbers grow by one. -/
def process_add_file (file : Nat) : K Int := fun w =>
  .ret w.fd { w with files := w.files ++ [{ file := file, fd := w.fd }], fd := w.fd + 1,
                     trace := w.trace ++ [Event.call "process_add_file" [file]] }

/-- Modelled from the spec: `process_get_file (fd)` of `process.c`, which is not among the sources:
the file of the entry with this descriptor in the table of the calling process, `0` for `NULL`. -/
def process_get_file (fd : Int) : K Nat := fun w =>
  .ret (((w.files.find? (fun e => decide (e.fd = fd))).map (fun e => e.file)).getD 0)
    { w with trace := w.trace ++ [Event.call "process_get_file" [to_unsigned fd]] }

/-- Modelled from the spec: `process_close_file (fd)` of `process.c`, which is not among the
sources: the entry with this descriptor is removed and its file closed; an unknown descriptor is
left alone. -/
def process_close_file (k : Env) (fd : Int) : K Unit := do
  emit (.call "process_close_file" [to_unsigned fd])
  let f ← fun w => .ret (((w.files.find? (fun e => decide (e.fd = fd))).map (fun e => e.file)).getD 0) w
  if f != 0 then
    let _ ← call k "file_close" [f]
    fun w => .ret () { w with files := w.files.filter (fun e => decide (e.fd ≠ fd)) }

/-- The bytes `putbuf` reads from `n` addresses starting at `a`, up to the first address that is
not present, and that address. -/
def read_buffer (k : Env) (w : World) : Nat → Nat → List Nat × Option Nat
  | 0, _ => ([], none)
  | n + 1, a =>
    if present k w a then
      ((w.mem a % 256) :: (read_buffer k w n ((a + 1) % 2 ^ 32)).1,
        (read_buffer k w n ((a + 1) % 2 ^ 32)).2)
    else ([], some a)

/-- Modelled from the spec: `putbuf (buf, size)` of `lib/kernel/console.c`, which is not among the
sources: the `size` bytes at `buf` are written to the console in one piece. -/
def putbuf (k : Env) (buf size : Nat) : K Unit := fun w =>
  match (read_buffer k w size buf).2 with
  | none => .ret () { w with trace := w.trace ++ [Event.putbuf (read_buffer k w size buf).1] }
  | some a =>
    .stop (.fault a) { w with trace := w.trace ++ [Event.putbuf (read_buffer k w size buf).1] }

/-- Modelled from the spec: `shutdown_power_off ()`, which is not among the sources: the machine
is powered off, the call does not return. -/
def shutdown_power_off {α : Type} : K α := fun w =>
  .stop .poweroff { w with trace := w.trace ++ [Event.call "shutdown_power_off" []] }

/-! ### The system calls -/

/-- `void halt (void)`. -/
def halt : K Unit := shutdown_power_off

/-- `int exec (const char *cmd_line)`. -/
def exec (k : Env) (cmd_line : Nat) : K Int := do
  let pid := to_int (← call k "process_execute" [cmd_line])
  let child_process ← get_child_process pid
  match child_process with
  | none => return ERROR_CODE
  | some cp =>
    if ((← thread_current).records cp).load_status = load_state.NOT_LOADED then
      let _ ← call k "sema_down" [cp]
    if ((← thread_current).records cp).load_status = load_state.LOAD_FAIL then
      remove_child_process cp
      return ERROR_CODE
    return pid

/-- `int wait (int pid)`. -/
def wait (k : Env) (pid : Int) : K Int := do
  return to_int (← call k "process_wait" [to_unsigned pid])

/-- `bool create (const char *file_name, unsigned size)`. -/
def create (k : Env) (file_name size : Nat) : K Bool := do
  lock_acquire
  let result ← call k "filesys_create" [file_name, size]
  lock_release
  return result != 0

/-- `bool remove (const char *file_name)`. -/
def remove (k : Env) (file_name : Nat) : K Bool := do
  lock_acquire
  let result ← call k "filesys_remove" [file_name]
  lock_acquire
  return result != 0

/-- `int open (const char *file_name)`. -/
def sys_open (k : Env) (file_name : Nat) : K Int := do
  lock_acquire
  let f ← call k "filesys_open" [file_name]
  if f = 0 then
    lock_release
    return ERROR_CODE
  let result ← process_add_file f
  lock_release
  return result

/-- `void close (int fd)`. -/
def close (k : Env) (fd : Int) : K Unit := do
  lock_acquire
  process_close_file k fd
  lock_release

/-- `int filesize (int fd)`. -/
def filesize (k : Env) (fd : Int) : K Int := do
  lock_acquire
  let f ← process_get_file fd
  if f = 0 then
    lock_release
    return ERROR_CODE
  let result ← call k "file_length" [f]
  lock_release
  return to_int result

/-- `int read (int fd, void *buf, unsigned size)`, the body of the loop of the keyboard branch:
the byte `input_getc ()` is stored at `buf_tmp[i]`. -/
def read_body (k : Env) (buf i : Nat) : K Unit := do
  let c ← call k "input_getc" []
  emit (.store ((buf + i) % 2 ^ 32) 1)
  store_byte k ((buf + i) % 2 ^ 32) c

/-- `int read (int fd, void *buf, unsigned size)`, the loop of the keyboard branch: `n` rounds
from the index `i`. -/
def read_loop (k : Env) (buf : Nat) : Nat → Nat → K Unit
  | 0, _, w => .ret () w
  | n + 1, i, w =>
    match read_body k buf i w with
    | .ret _ w1 => read_loop k buf n (i + 1) w1
    | .stop s w1 => .stop s w1

/-- `int read (int fd, void *buf, unsigned size)`. -/
def read (k : Env) (fd : Int) (buf size : Nat) : K Int := do
  if fd = STDIN_FILENO then
    read_loop k buf size 0
    return to_int size
  lock_acquire
  let f ← process_get_file fd
  if f = 0 then
    lock_release
    return ERROR_CODE
  let result ← call k "file_read" [f, buf, size]
  lock_release
  return to_int result

/-- `int write (int fd, const void *buf, unsigned size)`. -/
def write (k : Env) (fd : Int) (buf size : Nat) : K Int := do
  if fd = STDOUT_FILENO then
    putbuf k buf size
    return to_int size
  lock_acquire
  let f ← process_get_file fd
  if f = 0 then
    lock_release
    return ERROR_CODE
  let result ← call k "file_write" [f, buf, size]
  lock_release
  return to_int result

/-- `unsigned tell (int fd)`. -/
def tell (k : Env) (fd : Int) : K Nat := do
  lock_acquire
  let f ← process_get_file fd
  if f = 0 then
    lock_release
    return to_unsigned ERROR_CODE
  let result ← call k "file_tell" [f]
  lock_release
  return result % 2 ^ 32

/-- `void seek (int fd, unsigned pos)`. -/
def seek (k : Env) (fd : Int) (pos : Nat) : K Unit := do
  lock_acquire
  let f ← process_get_file fd
  if f = 0 then
    lock_release
    return
  let _ ← call k "file_seek" [f, pos]
  lock_release

/-- The element `arg[i]` of the argument array, as a 32-bit pattern. -/
def arg_at (k : Env) (arg i : Nat) : K Nat := load_word k ((arg + 4 * i) % 2 ^ 32)

/-- `static void syscall_handler (struct intr_frame *f)`: the result is the frame as the handler
leaves it. The `case` labels are tried in the order of the source. -/
def syscall_handler (k : Env) (f : intr_frame) : K intr_frame := do
  let arg ← call k "malloc" [4 * MAX_ARGS]
  let esp := f.esp
  let syscall_no := to_int (← load_word k esp)
  if syscall_no = k.SYS_HALT then
    halt
    return f
  else if syscall_no = k.SYS_EXIT then
    get_arguments k f arg 1
    exit k (to_int (← arg_at k arg 0))
    return f
  else if syscall_no = k.SYS_EXEC then
    get_arguments k f arg 1
    check_page_fault k (← arg_at k arg 0)
    check_string (← arg_at k arg 0)
    let r ← exec k (← arg_at k arg 0)
    return { f with eax := to_unsigned r }
  else if syscall_no = k.SYS_WAIT then
    get_arguments k f arg 1
    let r ← wait k (to_int (← arg_at k arg 0))
    return { f with eax := to_unsigned r }
  else if syscall_no = k.SYS_CREATE then
    get_arguments k f arg 2
    check_page_fault k (← arg_at k arg 0)
    check_string (← arg_at k arg 0)
    let r ← create k (← arg_at k arg 0) (← arg_at k arg 1)
    return { f with eax := if r then 1 else 0 }
  else if syscall_no = k.SYS_REMOVE then
    get_arguments k f arg 1
    check_page_fault k (← arg_at k arg 0)
    check_string (← arg_at k arg 0)
    let r ← remove k (← arg_at k arg 0)
    return { f with eax := if r then 1 else 0 }
  else if syscall_no = k.SYS_OPEN then
    get_arguments k f arg 1
    check_page_fault k (← arg_at k arg 0)
    check_string (← arg_at k arg 0)
    let r ← sys_open k (← arg_at k arg 0)
    return { f with eax := to_unsigned r }
  else if syscall_no = k.SYS_CLOSE then
    get_arguments k f arg 1
    close k (to_int (← arg_at k arg 0))
    return f
  else if syscall_no = k.SYS_READ then
    get_arguments k f arg 3
    check_page_fault k (← arg_at k arg 1)
    check_buffer k (← arg_at k arg 1) (← arg_at k arg 2)
    let r ← read k (to_int (← arg_at k arg 0)) (← arg_at k arg 1) (← arg_at k arg 2)
    return { f with eax := to_unsigned r }
  else if syscall_no = k.SYS_WRITE then
    get_arguments k f arg 3
    check_page_fault k (← arg_at k arg 1)
    check_buffer k (← arg_at k arg 1) (← arg_at k arg 2)
    let r ← write k (to_int (← arg_at k arg 0)) (← arg_at k arg 1) (← arg_at k arg 2)
    return { f with eax := to_unsigned r }
  else if syscall_no = k.SYS_FILESIZE then
    get_arguments k f arg 1
    let r ← filesize k (to_int (← arg_at k arg 0))
    return { f with eax := to_unsigned r }
  else if syscall_no = k.SYS_SEEK then
    get_arguments k f arg 2
    seek k (to_int (← arg_at k arg 0)) (← arg_at k arg 1)
    return f
  else if syscall_no = k.SYS_TELL then
    get_arguments k f arg 1
    let r ← tell k (to_int (← arg_at k arg 0))
    return { f with eax := r }
  else
    return f

/-! ## A concrete machine -/

/-- The constants of Pintos (`PHYS_BASE`, `PGSIZE`, the numbering of `syscall-nr.h`) with
collaborators that answer `0`, except that `malloc` answers the kernel address `0xc0100000`,
`filesys_remove` answers `true`, and the parent is alive. No collaborator changes the world. -/
def pintos : Env where
  PHYS_BASE := 0xc0000000
  PGSIZE := 4096
  SYS_HALT := 0
  SYS_EXIT := 1
  SYS_EXEC := 2
  SYS_WAIT := 3
  SYS_CREATE := 4
  SYS_REMOVE := 5
  SYS_OPEN := 6
  SYS_FILESIZE := 7
  SYS_READ := 8
  SYS_WRITE := 9
  SYS_SEEK := 10
  SYS_TELL := 11
  SYS_CLOSE := 12
  parent_alive := fun _ _ => true
  result := fun fn _ _ =>
    if fn = "malloc" then 0xc0100000 else if fn = "filesys_remove" then 1 else 0
  effect := fun _ _ w => w

/-- Memory holding the given 32-bit words (little endian) at the given addresses, and the given
bytes; zero elsewhere. -/
def mem_of (words : List (Nat × Nat)) (bytes : List (Nat × Nat)) (a : Nat) : Nat :=
  match bytes.find? (fun e => e.1 = a) with
  | some e => e.2
  | none =>
    match words.find? (fun e => decide (e.1 ≤ a ∧ a < e.1 + 4)) with
    | some e => e.2 / 256 ^ (a - e.1) % 256
    | none => 0

/-- A user process named `"main"` whose page table maps two pages, the code page at
`0x08048000` and the stack page at `0xbffff000`; every kernel address is present; the process
has no children, no open files, does not hold `file_lock` and has done nothing yet. The user
stack holds `words`, user memory holds `bytes`. -/
def machine (words bytes : List (Nat × Nat)) : World where
  name := "main"
  parent := 1
  child_process := 0
  pagedir := fun pg =>
    if pg = 0x08048 then some 0xc0200000 else if pg = 0xbffff then some 0xc0201000 else none
  kernel_mapped := fun _ => true
  mem := mem_of words bytes
  records := fun _ => { pid := 0, load_status := load_state.NOT_LOADED, load_sema := 0,
                        exit_status := 0 }
  children := []
  files := []
  fd := 2
  file_lock_held := false
  trace := []

/-- The collaborators of `pintos`, except that `process_execute` answers pid `3` and links a
record for it, not yet loaded, at `0xc0300000` into the registry of the caller, and that the
caller of `sema_down` wakes up when the child has reported `status`. -/
def pintos_loader (status : load_state) : Env :=
  { pintos with
    result := fun fn args w => if fn = "process_execute" then 3 else pintos.result fn args w
    effect := fun fn _ w =>
      if fn = "process_execute" then
        { w with children := 0xc0300000 :: w.children,
                 records := fun p =>
                   if p = 0xc0300000 then
                     { pid := 3, load_status := load_state.NOT_LOADED, load_sema := 0,
                       exit_status := 0 }
                   else w.records p }
      else if fn = "sema_down" then
        { w with records := fun p =>
            if p = 0xc0300000 then { w.records p with load_status := status }
            else w.records p }
      else w }

/-- The process `machine` as a child named `"child"` whose parent keeps the record at
`0xc0300000` about it. -/
def child_machine : World :=
  { machine [] [] with name := "child", child_process := 0xc0300000 }

/-- A trap frame with the given user stack pointer. -/
def frame_at (esp : Nat) : intr_frame := { eax := 7, esp := esp, regs := [1, 2, 3] }

/-- The stack of a process that calls `write (1, 0x08048fff, 2)`: the buffer starts with the last
byte of the code page, `'h'`, and ends in the page after it, which is not mapped. -/
def write_across_pages : World :=
  machine [(0xbfffff00, 9), (0xbfffff04, 1), (0xbfffff08, 0x08048fff), (0xbfffff0c, 2)]
    [(0x08048fff, 104)]

/-- The stack of a process that calls `open (0x08048fff)`, resp. another system call `nr` with
that one argument: the string starts with the last byte of the code page, `'a'`, and runs into
the page after it, which is not mapped, before any terminator. -/
def string_across_pages (nr : Nat) : World :=
  machine [(0xbfffff00, nr), (0xbfffff04, 0x08048fff)] [(0x08048fff, 97)]

/-- The stack of a process that calls the system call `nr` with the one argument `0x08048000`,
where the string `"x"` lies, terminator included, in the code page. -/
def string_in_page (nr : Nat) : World :=
  machine [(0xbfffff00, nr), (0xbfffff04, 0x08048000)] [(0x08048000, 120), (0x08048001, 0)]

/-- The stack of a process that calls `read (0, 0x08048fff, 2)`: the buffer starts with the last
byte of the code page and ends in the page after it, which is not mapped. -/
def read_across_pages : World :=
  machine [(0xbfffff00, 8), (0xbfffff04, 0), (0xbfffff08, 0x08048fff), (0xbfffff0c, 2)] []

/-- The stack of a process that calls `write (1, 0x08048000, 2)` on the bytes `'h'`, `'i'` of its
code page. -/
def write_hi : World :=
  machine [(0xbfffff00, 9), (0xbfffff04, 1), (0xbfffff08, 0x08048000), (0xbfffff0c, 2)]
    [(0x08048000, 104), (0x08048001, 105)]

/-- A process whose code page starts with the two bytes `'h'`, `'i'`. -/
def hi_machine : World := machine [] [(0x08048000, 104), (0x08048001, 105)]

/-! ## The stages of `exec` -/

/-- The pid `process_execute (cmd_line)` returns to `exec` in the world `w`. -/
def exec_pid (k : Env) (cmd_line : Nat) (w : World) : Int :=
  to_int (k.result "process_execute" [cmd_line] w)

/-- The first two statements of `exec`: the record found for the new pid, and the world in which
`exec` starts to look at it. -/
def exec_lookup (k : Env) (cmd_line : Nat) : K (Option Nat) := do
  let n ← call k "process_execute" [cmd_line]
  get_child_process (to_int n)

/-- The world in which `exec` wakes up from `sema_down` on the load semaphore of the record
`r`. -/
def exec_woken (k : Env) (cmd_line : Nat) (w : World) (r : Nat) : World :=
  (call k "sema_down" [r] (exec_lookup k cmd_line w).world).world

/-! ## The argument words of a system call -/

/-- The address of the argument word `i` on the user stack, `(int *) f->esp + i + 1`. -/
def arg_slot (f : intr_frame) (i : Nat) : Nat := (f.esp + 4 * (i + 1)) % 2 ^ 32

/-- The address of the array element `arg[i]`. -/
def arg_elem (arg i : Nat) : Nat := (arg + 4 * i) % 2 ^ 32

/-- The 32-bit word (little endian) that the memory `m` holds at the address `a`. -/
def word_of (m : Nat → Nat) (a : Nat) : Nat :=
  m a % 256 + 256 * (m ((a + 1) % 2 ^ 32) % 256) + 65536 * (m ((a + 2) % 2 ^ 32) % 256) +
    16777216 * (m ((a + 3) % 2 ^ 32) % 256)

/-- The 32-bit word stored at the address `a` in the world `w`. -/
def word_at (w : World) (a : Nat) : Nat := word_of w.mem a

/-- All four bytes of the word at `a` are present. -/
def word_present (k : Env) (w : World) (a : Nat) : Prop :=
  ∀ j, j < 4 → present k w ((a + j) % 2 ^ 32) = true

instance (k : Env) (w : World) (a : Nat) : Decidable (word_present k w a) := by
  unfold word_present
  exact inferInstance

/-- The words at `a` and at `b` share no byte. -/
def words_apart (a b : Nat) : Prop :=
  ∀ j, j < 4 → ∀ j', j' < 4 → (a + j) % 2 ^ 32 ≠ (b + j') % 2 ^ 32

instance (a b : Nat) : Decidable (words_apart a b) := by
  unfold words_apart
  exact inferInstance

/-- The address lies in the user region `[USER_BOTTOM_ADDR, PHYS_BASE)`. -/
def in_user_region (k : Env) (a : Nat) : Prop := USER_BOTTOM_ADDR ≤ a ∧ a < k.PHYS_BASE

instance (k : Env) (a : Nat) : Decidable (in_user_region k a) := by
  unfold in_user_region
  exact inferInstance

/-- The memory after the four byte stores of `store_word`. -/
def mem_store_word (m : Nat → Nat) (a v : Nat) : Nat → Nat := fun x =>
  if x = (a + 3) % 2 ^ 32 then v / 16777216 % 256
  else if x = (a + 2) % 2 ^ 32 then v / 65536 % 256
  else if x = (a + 1) % 2 ^ 32 then v / 256 % 256
  else if x = a then v % 256
  else m x

/-- The memory after `n` rounds of the loop of `get_arguments` from the index `i`: each round
copies one argument word into the array. -/
def mem_after_arguments (f : intr_frame) (arg : Nat) : Nat → Nat → (Nat → Nat) → (Nat → Nat)
  | 0, _, m => m
  | n + 1, i, m =>
    mem_after_arguments f arg n (i + 1)
      (mem_store_word m (arg_elem arg i) (word_of m (arg_slot f i)))

/-- What `n` rounds of the loop of `get_arguments` from the index `i` do when nothing stops
them: each round reads its argument word and then writes its array element. -/
def trace_of_arguments (f : intr_frame) (arg : Nat) : Nat → Nat → List Event
  | 0, _ => []
  | n + 1, i =>
    Event.load (arg_slot f i) 4 :: Event.store (arg_elem arg i) 4 ::
      trace_of_arguments f arg n (i + 1)

/-! ## Theorems -/

/-- Sequencing after a part that returns. -/
theorem K.bind_ret_apply {α β : Type} (m : K α) (f : α → K β) (w w1 : World) (a : α)
    (h : m w = .ret a w1) : (m >>= f) w = f a w1 := by
  show K.bind m f w = f a w1
  simp [K.bind, h]

/-- Sequencing after a part that stops. -/
theorem K.bind_stop_apply {α β : Type} (m : K α) (f : α → K β) (w w1 : World) (s : Stop)
    (h : m w = .stop s w1) : (m >>= f) w = .stop s w1 := by
  show K.bind m f w = .stop s w1
  simp [K.bind, h]

/-- Reading a word whose first byte is not present faults at that byte. -/
theorem load_word_fault (k : Env) (a : Nat) (w : World) (h : present k w a = false) :
    load_word k a w = .stop (.fault a) { w with trace := w.trace ++ [Event.load a 4] } := by
  have h' : present k { w with trace := w.trace ++ [Event.load a 4] } a = false := h
  simp [load_word, bind, K.bind, emit, load_byte, h']

/-- Whatever `esp` is, when the word at `esp` is not present the handler faults reading it. -/
theorem syscall_handler_esp_fault (k : Env) (f : intr_frame) (w : World)
    (h : present k (call k "malloc" [4 * MAX_ARGS] w).world f.esp = false) :
    syscall_handler k f w =
      .stop (.fault f.esp)
        { (call k "malloc" [4 * MAX_ARGS] w).world with
          trace := (call k "malloc" [4 * MAX_ARGS] w).world.trace ++ [Event.load f.esp 4] } := by
  unfold syscall_handler
  rw [K.bind_ret_apply (call k "malloc" [4 * MAX_ARGS]) _ w _ _ rfl]
  exact K.bind_stop_apply _ _ _ _ _ (load_word_fault k f.esp _ h)

/-- Addresses of the user region pass `check_address`, which leaves no trace. -/
theorem check_address_ok (k : Env) (a : Nat) (w : World) (h1 : USER_BOTTOM_ADDR ≤ a)
    (h2 : a < k.PHYS_BASE) : check_address k a w = .ret () w := by
  have h1' : ¬ a < USER_BOTTOM_ADDR := by omega
  simp [check_address, is_user_vaddr, h1', h2, pure, K.pure]

/-- An argument address in the user region that is not present is read, and faults. -/
theorem get_arguments_fault (k : Env) (f : intr_frame) (arg : Nat) (w : World)
    (h1 : USER_BOTTOM_ADDR ≤ (f.esp + 4) % 2 ^ 32) (h2 : (f.esp + 4) % 2 ^ 32 < k.PHYS_BASE)
    (h : present k w ((f.esp + 4) % 2 ^ 32) = false) :
    get_arguments k f arg 1 w =
      .stop (.fault ((f.esp + 4) % 2 ^ 32))
        { w with trace := w.trace ++ [Event.load ((f.esp + 4) % 2 ^ 32) 4] } := by
  have hc : check_address k ((f.esp + 4) % 2 ^ 32) w = .ret () w :=
    check_address_ok k _ w h1 h2
  show get_arguments_loop k f arg 1 0 w = _
  unfold get_arguments_loop
  have hb : get_arguments_body k f arg 0 w = .stop (.fault ((f.esp + 4) % 2 ^ 32))
        { w with trace := w.trace ++ [Event.load ((f.esp + 4) % 2 ^ 32) 4] } := by
    unfold get_arguments_body
    simp only [Nat.zero_add, Nat.mul_one]
    rw [K.bind_ret_apply (check_address k ((f.esp + 4) % 2 ^ 32)) _ w _ _ hc]
    exact K.bind_stop_apply _ _ _ _ _ (load_word_fault k _ _ h)
  simp only [hb]

/-- A buffer whose bytes all lie in the user region passes `check_buffer`, mapped or not. -/
theorem check_buffer_loop_region (k : Env) (n : Nat) :
    ∀ buf w, buf < 2 ^ 32 →
      (∀ i, i < n → USER_BOTTOM_ADDR ≤ (buf + i) % 2 ^ 32 ∧ (buf + i) % 2 ^ 32 < k.PHYS_BASE) →
      check_buffer_loop k n buf w = .ret () w := by
  induction n with
  | zero => intro buf w _ _; rfl
  | succ n ih =>
    intro buf w hb h
    have h0 := h 0 (Nat.succ_pos n)
    rw [Nat.add_zero, Nat.mod_eq_of_lt hb] at h0
    have hc : check_address k buf w = .ret () w := check_address_ok k buf w h0.1 h0.2
    have hstep : ∀ i, ((buf + 1) % 2 ^ 32 + i) % 2 ^ 32 = (buf + (i + 1)) % 2 ^ 32 := by
      intro i; omega
    unfold check_buffer_loop
    simp only [hc]
    exact ih _ w (Nat.mod_lt _ (by norm_num)) (by
      intro i hi
      rw [hstep]
      exact h (i + 1) (Nat.succ_lt_succ hi))

/-- The line `exit (-1)` prints. -/
theorem exit_line_error (n : String) :
    n ++ ": exit(" ++ toString (-1 : Int) ++ ")\n" = n ++ ": exit(-1)\n" := by
  have h : toString (-1 : Int) = "-1" := by decide
  rw [h, String.append_assoc, String.append_assoc]
  congr 1

/-- What `exit` does, in one equation. -/
theorem exit_eq (k : Env) (status : Int) (w : World) :
    exit k status w = .stop (.exited status)
      { (if (k.parent_alive w w.parent && w.child_process != 0) = true then
          { w with records := fun q =>
            if q = w.child_process then { w.records q with exit_status := status }
            else w.records q }
         else w) with
        trace := w.trace ++ [Event.printf (w.name ++ ": exit(" ++ toString status ++ ")\n")] } := by
  unfold exit
  by_cases h : (k.parent_alive w w.parent && w.child_process != 0) = true
  · simp [h, bind, K.bind, thread_current, set_exit_status, printf_exit, emit, thread_exit]
  · simp [h, bind, K.bind, thread_current, set_exit_status, printf_exit, emit, thread_exit, pure,
      K.pure]

/-- C1: for every address `a` and every page table, `check_page_fault (a)` returns normally
exactly when `a` lies in `[0x08048000, PHYS_BASE)` and the page table maps `a`; in every other
case the process is terminated through `exit (-1)`. When `a` lies outside the region, the call
ends inside `check_address`: the only thing the thread still does is print its exit line, so the
page table is not consulted and nothing is read at `a`. -/
theorem check_page_fault_spec (k : Env) (w : World) (a : Nat) :
    ((check_page_fault k a w).stopped = none ↔
      (USER_BOTTOM_ADDR ≤ a ∧ a < k.PHYS_BASE ∧ (w.pagedir (a / k.PGSIZE)).isSome = true)) ∧
    ((check_page_fault k a w).stopped = none ∨
      (check_page_fault k a w).stopped = some (Stop.exited (-1))) ∧
    (check_page_fault k a w).world.trace =
      (if USER_BOTTOM_ADDR ≤ a ∧ a < k.PHYS_BASE then
        (if (w.pagedir (a / k.PGSIZE)).isSome = true then w.trace ++ [Event.pagedir_get_page a]
         else w.trace ++ [Event.pagedir_get_page a, Event.printf (w.name ++ ": exit(-1)\n")])
       else w.trace ++ [Event.printf (w.name ++ ": exit(-1)\n")]) ∧
    (¬ (USER_BOTTOM_ADDR ≤ a ∧ a < k.PHYS_BASE) →
      check_page_fault k a w = check_address k a w) := by
  by_cases hr : USER_BOTTOM_ADDR ≤ a ∧ a < k.PHYS_BASE
  · obtain ⟨h1, h2⟩ := hr
    have h1' : ¬ a < USER_BOTTOM_ADDR := by omega
    cases hm : w.pagedir (a / k.PGSIZE) with
    | none =>
      simp [check_page_fault, check_address, is_user_vaddr, h1, h2, h1', bind, K.bind, pure,
        K.pure, pagedir_get_page, hm, exit_eq, Outcome.stopped, Outcome.world, ERROR_CODE,
        exit_line_error]
    | some fr =>
      simp [check_page_fault, check_address, is_user_vaddr, h1, h2, h1', bind, K.bind, pure,
        K.pure, pagedir_get_page, hm, Outcome.stopped, Outcome.world]
  · have hc : (!is_user_vaddr k a || decide (a < USER_BOTTOM_ADDR)) = true := by
      simp [is_user_vaddr]; omega
    simp [check_page_fault, check_address, hc, bind, K.bind, exit_eq, Outcome.stopped,
      Outcome.world, hr, ERROR_CODE, exit_line_error]
    intro h1 h2
    exact absurd ⟨h1, h2⟩ hr

/-- C1, on a concrete machine: the code page is accepted, an unmapped user page and the first
kernel address are refused, the latter without a look at the page table. -/
theorem check_page_fault_spec_witness :
    (check_page_fault pintos 0x08048010 (machine [] [])).stopped = none ∧
    (check_page_fault pintos 0x08049010 (machine [] [])).stopped = some (Stop.exited (-1)) ∧
    (check_page_fault pintos 0xc0000000 (machine [] [])).world.trace =
      [Event.printf "main: exit(-1)\n"] :=
  ⟨((check_page_fault_spec pintos (machine [] []) 0x08048010).1).2 (by decide),
   by decide, by decide⟩

/-- C8: for every status and every current thread, `exit (status)` writes exactly the line
`"<name>: exit(<status in decimal>)"` with a newline to the console, once, and then terminates
the thread. It stores `status` in the `exit_status` field of the thread's own child record exactly
when the parent is alive and the thread has such a record, and it changes no other record. Every
validation failure (`check_address`, `check_page_fault`) goes through `exit (-1)` and so prints
`"<name>: exit(-1)"`. -/
theorem exit_spec (k : Env) (status : Int) (w : World) :
    (exit k status w).stopped = some (Stop.exited status) ∧
    (exit k status w).world.trace =
      w.trace ++ [Event.printf (w.name ++ ": exit(" ++ toString status ++ ")\n")] ∧
    (exit k status w).world.records =
      (if (k.parent_alive w w.parent && w.child_process != 0) = true then
        fun q =>
          if q = w.child_process then { w.records q with exit_status := status }
          else w.records q
       else w.records) ∧
    (∀ q, q ≠ w.child_process → (exit k status w).world.records q = w.records q) ∧
    (exit k status w).world.children = w.children ∧
    (∀ a, (check_address k a w).stopped = none ∨
      ((check_address k a w).stopped = some (Stop.exited (-1)) ∧
        (check_address k a w).world.trace =
          w.trace ++ [Event.printf (w.name ++ ": exit(-1)\n")])) ∧
    (∀ a, (check_page_fault k a w).stopped = none ∨
      ((check_page_fault k a w).stopped = some (Stop.exited (-1)) ∧
        ((check_page_fault k a w).world.trace =
            w.trace ++ [Event.printf (w.name ++ ": exit(-1)\n")] ∨
         (check_page_fault k a w).world.trace =
            w.trace ++ [Event.pagedir_get_page a, Event.printf (w.name ++ ": exit(-1)\n")]))) := by
  refine ⟨?_, ?_, ?_, ?_, ?_, ?_, ?_⟩
  · simp [exit_eq, Outcome.stopped]
  · simp [exit_eq, Outcome.world]
  · by_cases h : (k.parent_alive w w.parent && w.child_process != 0) = true
    · simp only [exit_eq, Outcome.world, h, if_true]
    · simp only [exit_eq, Outcome.world, h, if_false]
      simp
  · intro q hq
    by_cases h : (k.parent_alive w w.parent && w.child_process != 0) = true
    · simp only [exit_eq, Outcome.world, h, if_true]
      simp [hq]
    · simp only [exit_eq, Outcome.world, h, if_false]
      simp
  · by_cases h : (k.parent_alive w w.parent && w.child_process != 0) = true
    · simp only [exit_eq, Outcome.world, h, if_true]
    · simp only [exit_eq, Outcome.world, h, if_false]
      simp
  · intro a
    by_cases hc : (!is_user_vaddr k a || decide (a < USER_BOTTOM_ADDR)) = true
    · right
      simp [check_address, hc, exit_eq, Outcome.stopped, Outcome.world, ERROR_CODE,
        exit_line_error]
    · left
      simp [check_address, hc, Outcome.stopped, pure, K.pure]
  · intro a
    by_cases hc : (!is_user_vaddr k a || decide (a < USER_BOTTOM_ADDR)) = true
    · right
      simp [check_page_fault, check_address, hc, exit_eq, Outcome.stopped, Outcome.world,
        ERROR_CODE, exit_line_error, bind, K.bind]
    · cases hm : w.pagedir (a / k.PGSIZE) with
      | none =>
        right
        simp [check_page_fault, check_address, hc, exit_eq, Outcome.stopped, Outcome.world,
          ERROR_CODE, exit_line_error, bind, K.bind, pure, K.pure, pagedir_get_page, hm]
      | some fr =>
        left
        simp [check_page_fault, check_address, hc, Outcome.stopped, bind, K.bind, pure, K.pure,
          pagedir_get_page, hm]

/-- C8, on a concrete machine: the child `"child"` exits with status 7; the line is
`"child: exit(7)"`, its record at `0xc0300000` receives 7, another record keeps its status. -/
theorem exit_spec_witness :
    (exit pintos 7 child_machine).stopped = some (Stop.exited 7) ∧
    (exit pintos 7 child_machine).world.trace = [Event.printf "child: exit(7)\n"] ∧
    ((exit pintos 7 child_machine).world.records 0xc0300000).exit_status = 7 ∧
    ((exit pintos 7 child_machine).world.records 0xc0300040).exit_status = 0 ∧
    (exit pintos (-1) (machine [] [])).world.trace = [Event.printf "main: exit(-1)\n"] :=
  ⟨(exit_spec pintos 7 child_machine).1, by decide, by decide, by decide, by decide⟩

/-- C2 (the code does not do this): `syscall_handler` reads the system call number at `f->esp`
without any check. With `esp = 0x10`, below the user region and unmapped, the first thing after
`malloc` is the read at `0x10`, which faults in the kernel: no `exit (-1)`. With
`esp = PHYS_BASE`, a kernel address, the word there is read and obeyed (it is `SYS_HALT`). In
general, whenever the word at `esp` is not present, in the user region or not, the handler
faults at `esp`. -/
theorem syscall_handler_reads_esp_unchecked :
    (syscall_handler pintos (frame_at 0x10) (machine [] [])).stopped = some (Stop.fault 0x10) ∧
    (syscall_handler pintos (frame_at 0x10) (machine [] [])).world.trace =
      [Event.call "malloc" [12], Event.load 0x10 4] ∧
    (syscall_handler pintos (frame_at 0xc0000000) (machine [] [])).stopped =
      some Stop.poweroff ∧
    (syscall_handler pintos (frame_at 0xc0000000) (machine [] [])).world.trace =
      [Event.call "malloc" [12], Event.load 0xc0000000 4, Event.call "shutdown_power_off" []] ∧
    (∀ (k : Env) (f : intr_frame) (w : World),
      present k (call k "malloc" [4 * MAX_ARGS] w).world f.esp = false →
      (syscall_handler k f w).stopped = some (Stop.fault f.esp)) := by
  refine ⟨by decide, by decide, by decide, by decide, ?_⟩
  intro k f w h
  rw [syscall_handler_esp_fault k f w h]
  rfl

/-- C3 (the code does not do this): `get_arguments` validates an argument address with
`check_address`, the region test, and misses the mapping test that `check_page_fault` performs.
With `esp = 0x08048ffc` the first argument lies at `0x08049000`, inside the user region but in a
page that is not mapped: `check_page_fault` on that address terminates the process with -1, but
`get_arguments` lets it pass and reads it, which faults in the kernel; `get_arguments` does not
return, `arg[0]` receives nothing, and the process is not terminated by `exit (-1)`. The same
through `syscall_handler`, for the system call `exit`, and in general for every first argument
address that lies in the user region and is not present. -/
theorem get_arguments_reads_unmapped :
    in_user_region pintos (arg_slot (frame_at 0x08048ffc) 0) ∧
    arg_slot (frame_at 0x08048ffc) 0 = 0x08049000 ∧
    present pintos (machine [(0x08048ffc, 1)] []) 0x08049000 = false ∧
    (check_page_fault pintos 0x08049000 (machine [(0x08048ffc, 1)] [])).stopped =
      some (Stop.exited (-1)) ∧
    (get_arguments pintos (frame_at 0x08048ffc) 0xc0100000 1
        (machine [(0x08048ffc, 1)] [])).value = none ∧
    (get_arguments pintos (frame_at 0x08048ffc) 0xc0100000 1
        (machine [(0x08048ffc, 1)] [])).stopped = some (Stop.fault 0x08049000) ∧
    (get_arguments pintos (frame_at 0x08048ffc) 0xc0100000 1
        (machine [(0x08048ffc, 1)] [])).world.trace = [Event.load 0x08049000 4] ∧
    (syscall_handler pintos (frame_at 0x08048ffc) (machine [(0x08048ffc, 1)] [])).stopped =
      some (Stop.fault 0x08049000) ∧
    (syscall_handler pintos (frame_at 0x08048ffc) (machine [(0x08048ffc, 1)] [])).world.trace =
      [Event.call "malloc" [12], Event.load 0x08048ffc 4, Event.load 0x08049000 4] ∧
    (∀ (k : Env) (f : intr_frame) (arg : Nat) (w : World),
      USER_BOTTOM_ADDR ≤ (f.esp + 4) % 2 ^ 32 → (f.esp + 4) % 2 ^ 32 < k.PHYS_BASE →
      present k w ((f.esp + 4) % 2 ^ 32) = false →
      (get_arguments k f arg 1 w).stopped = some (Stop.fault ((f.esp + 4) % 2 ^ 32)) ∧
      (get_arguments k f arg 1 w).world.trace =
        w.trace ++ [Event.load ((f.esp + 4) % 2 ^ 32) 4]) := by
  refine ⟨by decide, by decide, by decide, by decide, by decide, by decide, by decide,
    by decide, by decide, ?_⟩
  intro k f arg w h1 h2 h
  rw [get_arguments_fault k f arg w h1 h2 h]
  exact ⟨rfl, rfl⟩

/-- Presence of an address does not depend on the trace. -/
theorem present_with_trace (k : Env) (w : World) (t : List Event) (a : Nat) :
    present k { w with trace := t } a = present k w a := rfl

/-- Reading a word whose four bytes are present gives the word stored there. -/
theorem load_word_ok (k : Env) (a : Nat) (w : World) (ha : a < 2 ^ 32)
    (hp : word_present k w a) :
    load_word k a w = .ret (word_at w a) { w with trace := w.trace ++ [Event.load a 4] } := by
  have h0 : present k w a = true := by
    have := hp 0 (by norm_num)
    rwa [Nat.add_zero, Nat.mod_eq_of_lt ha] at this
  have h1 := hp 1 (by norm_num)
  have h2 := hp 2 (by norm_num)
  have h3 := hp 3 (by norm_num)
  simp only [load_word, bind, K.bind, emit, load_byte, present_with_trace, h0, h1, h2, h3,
    if_true, pure, K.pure, word_at, word_of]

/-- Writing a word whose four bytes are present changes these four bytes. -/
theorem store_word_ok (k : Env) (a v : Nat) (w : World) (ha : a < 2 ^ 32)
    (hp : word_present k w a) :
    store_word k a v w =
      .ret () { w with trace := w.trace ++ [Event.store a 4],
                       mem := mem_store_word w.mem a v } := by
  have h0 : present k w a = true := by
    have := hp 0 (by norm_num)
    rwa [Nat.add_zero, Nat.mod_eq_of_lt ha] at this
  have h1 := hp 1 (by norm_num)
  have h2 := hp 2 (by norm_num)
  have h3 := hp 3 (by norm_num)
  simp only [present] at h0 h1 h2 h3
  simp only [store_word, bind, K.bind, emit, probe, store_byte, present, h0, h1, h2, h3,
    if_true]
  rfl

/-- Argument addresses are 32-bit addresses. -/
theorem arg_slot_lt (f : intr_frame) (i : Nat) : arg_slot f i < 2 ^ 32 :=
  Nat.mod_lt _ (by norm_num)

/-- Array element addresses are 32-bit addresses. -/
theorem arg_elem_lt (arg i : Nat) : arg_elem arg i < 2 ^ 32 :=
  Nat.mod_lt _ (by norm_num)

/-- Presence of a word depends on the page table and the kernel mappings only. -/
theorem word_present_of_same_pages (k : Env) (w w' : World) (a : Nat)
    (hpd : w'.pagedir = w.pagedir) (hkm : w'.kernel_mapped = w.kernel_mapped)
    (h : word_present k w a) : word_present k w' a := by
  intro j hj
  have := h j hj
  simp only [present, hpd, hkm] at this ⊢
  exact this

/-- One round of the loop of `get_arguments` on an argument word that is in the user region and present. -/
theorem get_arguments_body_ok (k : Env) (f : intr_frame) (arg i : Nat) (w : World)
    (hr : in_user_region k (arg_slot f i)) (hs : word_present k w (arg_slot f i))
    (ha : word_present k w (arg_elem arg i)) :
    get_arguments_body k f arg i w =
      .ret () { w with
        trace := w.trace ++ [Event.load (arg_slot f i) 4, Event.store (arg_elem arg i) 4],
        mem := mem_store_word w.mem (arg_elem arg i) (word_of w.mem (arg_slot f i)) } := by
  unfold get_arguments_body
  show (check_address k (arg_slot f i) >>= fun _ =>
      load_word k (arg_slot f i) >>= fun v => store_word k (arg_elem arg i) v) w = _
  rw [K.bind_ret_apply (check_address k (arg_slot f i)) _ w w ()
    (check_address_ok k _ w hr.1 hr.2)]
  rw [K.bind_ret_apply (load_word k (arg_slot f i)) _ w _ _
    (load_word_ok k _ w (arg_slot_lt f i) hs)]
  have hst := store_word_ok k (arg_elem arg i) (word_at w (arg_slot f i))
    { w with trace := w.trace ++ [Event.load (arg_slot f i) 4] } (arg_elem_lt arg i)
    (word_present_of_same_pages k w _ _ rfl rfl ha)
  refine hst.trans ?_
  simp [word_at]

/-- One round of the loop of `get_arguments` on an argument address outside the user region. -/
theorem get_arguments_body_exit (k : Env) (f : intr_frame) (arg i : Nat) (w : World)
    (hr : ¬ in_user_region k (arg_slot f i)) :
    get_arguments_body k f arg i w = exit k ERROR_CODE w := by
  unfold get_arguments_body
  show (check_address k (arg_slot f i) >>= fun _ =>
      load_word k (arg_slot f i) >>= fun v => store_word k (arg_elem arg i) v) w = _
  have hc : (!is_user_vaddr k (arg_slot f i) || decide (arg_slot f i < USER_BOTTOM_ADDR)) = true := by
    simp only [in_user_region, not_and_or, not_le, not_lt] at hr
    simp only [is_user_vaddr, Bool.or_eq_true, Bool.not_eq_true', decide_eq_false_iff_not,
      decide_eq_true_eq, not_lt]
    omega
  have he : check_address k (arg_slot f i) w = exit k ERROR_CODE w := by
    simp [check_address, hc]
  rw [exit_eq] at he
  rw [K.bind_stop_apply (check_address k (arg_slot f i)) _ w _ _ he, exit_eq]

/-- The loop of `get_arguments` when every argument word is in the user region and present. -/
theorem get_arguments_loop_ok (k : Env) (f : intr_frame) (arg : Nat) :
    ∀ n i w,
      (∀ t, t < n → in_user_region k (arg_slot f (i + t)) ∧
        word_present k w (arg_slot f (i + t)) ∧ word_present k w (arg_elem arg (i + t))) →
      get_arguments_loop k f arg n i w =
        .ret () { w with trace := w.trace ++ trace_of_arguments f arg n i,
                         mem := mem_after_arguments f arg n i w.mem } := by
  intro n
  induction n with
  | zero =>
    intro i w _
    simp [get_arguments_loop, trace_of_arguments, mem_after_arguments]
  | succ n ih =>
    intro i w h
    have h0 := h 0 (Nat.succ_pos n)
    rw [Nat.add_zero] at h0
    unfold get_arguments_loop
    rw [get_arguments_body_ok k f arg i w h0.1 h0.2.1 h0.2.2]
    simp only []
    rw [ih (i + 1) _ (by
      intro t ht
      have := h (t + 1) (Nat.succ_lt_succ ht)
      rw [show i + (t + 1) = i + 1 + t by omega] at this
      exact ⟨this.1, word_present_of_same_pages k w _ _ rfl rfl this.2.1,
        word_present_of_same_pages k w _ _ rfl rfl this.2.2⟩)]
    simp [trace_of_arguments, mem_after_arguments]

/-- The loop of `get_arguments` when the first argument address outside the user region has the index `kk`. -/
theorem get_arguments_loop_exit (k : Env) (f : intr_frame) (arg : Nat) :
    ∀ kk n i w, kk < n →
      (∀ t, t < kk → in_user_region k (arg_slot f (i + t)) ∧
        word_present k w (arg_slot f (i + t)) ∧ word_present k w (arg_elem arg (i + t))) →
      ¬ in_user_region k (arg_slot f (i + kk)) →
      get_arguments_loop k f arg n i w =
        exit k ERROR_CODE { w with trace := w.trace ++ trace_of_arguments f arg kk i,
                                   mem := mem_after_arguments f arg kk i w.mem } := by
  intro kk
  induction kk with
  | zero =>
    intro n i w hn _ hout
    obtain ⟨n', rfl⟩ : ∃ n', n = n' + 1 := ⟨n - 1, by omega⟩
    rw [Nat.add_zero] at hout
    unfold get_arguments_loop
    rw [get_arguments_body_exit k f arg i w hout]
    simp [exit_eq, trace_of_arguments, mem_after_arguments]
  | succ kk ih =>
    intro n i w hn h hout
    obtain ⟨n', rfl⟩ : ∃ n', n = n' + 1 := ⟨n - 1, by omega⟩
    have h0 := h 0 (Nat.succ_pos kk)
    rw [Nat.add_zero] at h0
    unfold get_arguments_loop
    rw [get_arguments_body_ok k f arg i w h0.1 h0.2.1 h0.2.2]
    simp only []
    rw [ih n' (i + 1) _ (by omega) (by
      intro t ht
      have := h (t + 1) (Nat.succ_lt_succ ht)
      rw [show i + (t + 1) = i + 1 + t by omega] at this
      exact ⟨this.1, word_present_of_same_pages k w _ _ rfl rfl this.2.1,
        word_present_of_same_pages k w _ _ rfl rfl this.2.2⟩) (by
      rw [show i + 1 + kk = i + (kk + 1) by omega]
      exact hout)]
    simp [trace_of_arguments, mem_after_arguments]

/-- A word is below `2 ^ 32`. -/
theorem word_of_lt (m : Nat → Nat) (a : Nat) : word_of m a < 2 ^ 32 := by
  unfold word_of
  have h0 := Nat.mod_lt (m a) (show 0 < 256 by norm_num)
  have h1 := Nat.mod_lt (m ((a + 1) % 2 ^ 32)) (show 0 < 256 by norm_num)
  have h2 := Nat.mod_lt (m ((a + 2) % 2 ^ 32)) (show 0 < 256 by norm_num)
  have h3 := Nat.mod_lt (m ((a + 3) % 2 ^ 32)) (show 0 < 256 by norm_num)
  omega

/-- The word at `a` depends on the four bytes at `a` only. -/
theorem word_of_congr (m m' : Nat → Nat) (a : Nat) (ha : a < 2 ^ 32)
    (h : ∀ j, j < 4 → m ((a + j) % 2 ^ 32) = m' ((a + j) % 2 ^ 32)) :
    word_of m a = word_of m' a := by
  have h0 := h 0 (by norm_num)
  rw [Nat.add_zero, Nat.mod_eq_of_lt ha] at h0
  unfold word_of
  rw [h0, h 1 (by norm_num), h 2 (by norm_num), h 3 (by norm_num)]

/-- Storing a word leaves the other bytes alone. -/
theorem mem_store_word_other (m : Nat → Nat) (a v x : Nat) (ha : a < 2 ^ 32)
    (h : ∀ j, j < 4 → x ≠ (a + j) % 2 ^ 32) : mem_store_word m a v x = m x := by
  have h0 := h 0 (by norm_num)
  rw [Nat.add_zero, Nat.mod_eq_of_lt ha] at h0
  unfold mem_store_word
  rw [if_neg (h 3 (by norm_num)), if_neg (h 2 (by norm_num)), if_neg (h 1 (by norm_num)),
    if_neg h0]

/-- The word read back where a word was stored is that word. -/
theorem word_of_mem_store_word (m : Nat → Nat) (a v : Nat) (hv : v < 2 ^ 32) : word_of (mem_store_word m a v) a = v := by
  have e1 : (a + 1) % 2 ^ 32 ≠ (a + 3) % 2 ^ 32 := by omega
  have e2 : (a + 1) % 2 ^ 32 ≠ (a + 2) % 2 ^ 32 := by omega
  have e3 : (a + 2) % 2 ^ 32 ≠ (a + 3) % 2 ^ 32 := by omega
  have e4 : a ≠ (a + 3) % 2 ^ 32 := by omega
  have e5 : a ≠ (a + 2) % 2 ^ 32 := by omega
  have e6 : a ≠ (a + 1) % 2 ^ 32 := by omega
  unfold word_of mem_store_word
  simp only [e1, e2, e3, e4, e5, e6, if_true, if_false]
  omega

/-- The loop of `get_arguments` writes the array elements only. -/
theorem mem_after_arguments_other (f : intr_frame) (arg : Nat) :
    ∀ n i m x, (∀ t, t < n → ∀ j, j < 4 → x ≠ (arg_elem arg (i + t) + j) % 2 ^ 32) →
      mem_after_arguments f arg n i m x = m x := by
  intro n
  induction n with
  | zero => intro i m x _; rfl
  | succ n ih =>
    intro i m x h
    unfold mem_after_arguments
    rw [ih (i + 1) _ x (by
      intro t ht j hj
      have := h (t + 1) (Nat.succ_lt_succ ht) j hj
      rwa [show i + (t + 1) = i + 1 + t by omega] at this)]
    exact mem_store_word_other m _ _ x (arg_elem_lt arg i) (by
      intro j hj
      have := h 0 (Nat.succ_pos n) j hj
      rwa [Nat.add_zero] at this)

/-- After the loop of `get_arguments` every array element holds its argument word. -/
theorem mem_after_arguments_words (f : intr_frame) (arg : Nat) :
    ∀ n i m,
      (∀ t, t < n → ∀ t', t' < n → words_apart (arg_elem arg (i + t)) (arg_slot f (i + t'))) →
      (∀ t, t < n → ∀ t', t' < n → t ≠ t' →
        words_apart (arg_elem arg (i + t)) (arg_elem arg (i + t'))) →
      ∀ t, t < n →
        word_of (mem_after_arguments f arg n i m) (arg_elem arg (i + t)) =
          word_of m (arg_slot f (i + t)) := by
  intro n
  induction n with
  | zero => intro i m _ _ t ht; omega
  | succ n ih =>
    intro i m hs he t ht
    unfold mem_after_arguments
    cases t with
    | zero =>
      show word_of (mem_after_arguments f arg n (i + 1)
          (mem_store_word m (arg_elem arg i) (word_of m (arg_slot f i)))) (arg_elem arg i) =
        word_of m (arg_slot f i)
      rw [word_of_congr _ (mem_store_word m (arg_elem arg i) (word_of m (arg_slot f i))) _
        (arg_elem_lt arg i) (by
          intro j hj
          apply mem_after_arguments_other
          intro t' ht' j' hj'
          have := he 0 (Nat.succ_pos n) (t' + 1) (Nat.succ_lt_succ ht') (by omega) j hj j' hj'
          rwa [Nat.add_zero, show i + (t' + 1) = i + 1 + t' by omega] at this)]
      exact word_of_mem_store_word m _ _ (word_of_lt m _)
    | succ t =>
      rw [show i + (t + 1) = i + 1 + t by omega]
      rw [ih (i + 1) _ (by
          intro a ha b hb
          have := hs (a + 1) (Nat.succ_lt_succ ha) (b + 1) (Nat.succ_lt_succ hb)
          rwa [show i + (a + 1) = i + 1 + a by omega, show i + (b + 1) = i + 1 + b by omega]
            at this) (by
          intro a ha b hb hab
          have := he (a + 1) (Nat.succ_lt_succ ha) (b + 1) (Nat.succ_lt_succ hb) (by omega)
          rwa [show i + (a + 1) = i + 1 + a by omega, show i + (b + 1) = i + 1 + b by omega]
            at this) t (Nat.lt_of_succ_lt_succ ht)]
      apply word_of_congr _ _ _ (arg_slot_lt f _)
      intro j hj
      apply mem_store_word_other _ _ _ _ (arg_elem_lt arg i)
      intro j' hj'
      have := hs 0 (Nat.succ_pos n) (t + 1) ht j' hj' j hj
      rw [Nat.add_zero, show i + (t + 1) = i + 1 + t by omega] at this
      exact fun h => this h.symm

/-- Different elements of an array of at most three words share no byte. -/
theorem arg_elems_apart (arg i i' : Nat) (hi : i < 3) (hi' : i' < 3) (h : i ≠ i') :
    words_apart (arg_elem arg i) (arg_elem arg i') := by
  intro j hj j' hj'
  unfold arg_elem
  omega

/-- What `get_arguments` does where its region test is enough. For every trap frame with stack
pointer `esp`, every count `n` in {0,1,2,3} and every array `arg` of `n` writable words that
shares no byte with the argument words, `get_arguments (f, arg, n)` checks with `check_address` that `esp + 4 * (i + 1)` lies in the user
region before it reads the word there, for `i = 0 .. n - 1` in order. If all `n` addresses are in
the region and the words at them are mapped, it returns, `arg[i]` equals the 32-bit word stored
at `esp + 4 * (i + 1)` for every `i < n`, no other byte of memory is written, and the thread has
read word `i` and then written `arg[i]`, in order. If the first address outside the region has
the index `kk` and the words before it are mapped, the process is terminated with status -1
(the exit line is printed) and only the words below `kk` have been read. -/
theorem get_arguments_mapped_words (k : Env) (f : intr_frame) (arg n : Nat) (w : World) (hn : n ≤ 3)
    (harg : ∀ i, i < n → word_present k w (arg_elem arg i))
    (hapart : ∀ i, i < n → ∀ i', i' < n → words_apart (arg_elem arg i) (arg_slot f i')) :
    ((∀ i, i < n → in_user_region k (arg_slot f i) ∧ word_present k w (arg_slot f i)) →
      (get_arguments k f arg n w).stopped = none ∧
      (∀ i, i < n →
        word_at (get_arguments k f arg n w).world (arg_elem arg i) = word_at w (arg_slot f i)) ∧
      (∀ x, (∀ i, i < n → ∀ j, j < 4 → x ≠ (arg_elem arg i + j) % 2 ^ 32) →
        (get_arguments k f arg n w).world.mem x = w.mem x) ∧
      (get_arguments k f arg n w).world.trace = w.trace ++ trace_of_arguments f arg n 0 ∧
      get_arguments k f arg n w =
        .ret () { w with trace := w.trace ++ trace_of_arguments f arg n 0,
                         mem := mem_after_arguments f arg n 0 w.mem }) ∧
    (∀ kk, kk < n →
      (∀ i, i < kk → in_user_region k (arg_slot f i) ∧ word_present k w (arg_slot f i)) →
      ¬ in_user_region k (arg_slot f kk) →
      (get_arguments k f arg n w).stopped = some (Stop.exited (-1)) ∧
      (get_arguments k f arg n w).world.trace =
        w.trace ++ trace_of_arguments f arg kk 0 ++
          [Event.printf (w.name ++ ": exit(-1)\n")]) := by
  have hcount : get_arguments k f arg n w = get_arguments_loop k f arg n 0 w := by
    simp [get_arguments]
  refine ⟨?_, ?_⟩
  · intro h
    have e : get_arguments k f arg n w =
        .ret () { w with trace := w.trace ++ trace_of_arguments f arg n 0,
                         mem := mem_after_arguments f arg n 0 w.mem } := by
      rw [hcount]
      apply get_arguments_loop_ok
      intro t ht
      rw [Nat.zero_add]
      exact ⟨(h t ht).1, (h t ht).2, harg t ht⟩
    rw [e]
    refine ⟨rfl, ?_, ?_, rfl, rfl⟩
    · intro i hi
      have := mem_after_arguments_words f arg n 0 w.mem (by
          intro t ht t' ht'
          rw [Nat.zero_add, Nat.zero_add]
          exact hapart t ht t' ht') (by
          intro t ht t' ht' htt
          rw [Nat.zero_add, Nat.zero_add]
          exact arg_elems_apart arg t t' (by omega) (by omega) htt) i hi
      rw [Nat.zero_add] at this
      exact this
    · intro x hx
      exact mem_after_arguments_other f arg n 0 w.mem x (by
        intro t ht j hj
        rw [Nat.zero_add]
        exact hx t ht j hj)
  · intro kk hkk h hout
    have e : get_arguments k f arg n w =
        exit k ERROR_CODE { w with trace := w.trace ++ trace_of_arguments f arg kk 0,
                                   mem := mem_after_arguments f arg kk 0 w.mem } := by
      rw [hcount]
      apply get_arguments_loop_exit k f arg kk n 0 w hkk
      · intro t ht
        rw [Nat.zero_add]
        exact ⟨(h t ht).1, (h t ht).2, harg t (by omega)⟩
      · rw [Nat.zero_add]
        exact hout
    rw [e, exit_eq]
    refine ⟨rfl, ?_⟩
    simp [Outcome.world, ERROR_CODE, exit_line_error]

/-- On concrete machines: with three mapped argument words the second array element
receives the second argument, `0x08048fff`; with the second argument address at `PHYS_BASE` the
process exits with -1 after reading the first argument only. -/
theorem get_arguments_mapped_words_example :
    (get_arguments pintos (frame_at 0xbfffff00) 0xc0100000 3 write_across_pages).stopped =
      none ∧
    word_at (get_arguments pintos (frame_at 0xbfffff00) 0xc0100000 3 write_across_pages).world
      0xc0100004 = 0x08048fff ∧
    (get_arguments pintos (frame_at 0xbffffff8) 0xc0100000 2 (machine [] [])).stopped =
      some (Stop.exited (-1)) ∧
    (get_arguments pintos (frame_at 0xbffffff8) 0xc0100000 2 (machine [] [])).world.trace =
      [Event.load 0xbffffffc 4, Event.store 0xc0100000 4, Event.printf "main: exit(-1)\n"] := by
  have h := (get_arguments_mapped_words pintos (frame_at 0xbfffff00) 0xc0100000 3 write_across_pages
    (by decide) (by decide) (by decide)).1 (by decide)
  have h2 := (get_arguments_mapped_words pintos (frame_at 0xbffffff8) 0xc0100000 2 (machine [] [])
    (by decide) (by decide) (by decide)).2 1 (by decide) (by decide) (by decide)
  refine ⟨h.1, ?_, h2.1, ?_⟩
  · have h1 := h.2.1 1 (by decide)
    have e1 : arg_elem 0xc0100000 1 = 0xc0100004 := by decide
    have e2 : word_at write_across_pages (arg_slot (frame_at 0xbfffff00) 1) = 0x08048fff := by
      decide
    rw [e1, e2] at h1
    exact h1
  · exact h2.2.trans (by decide)

/-- C4 (the code does not do this): `check_buffer` checks the region of every byte, not its
mapping. The buffer of `write (1, 0x08048fff, 2)` starts in the mapped code page and ends in the
unmapped page after it; `check_page_fault` and `check_buffer` both return, `write` is invoked,
`putbuf` emits the first byte and the kernel faults on the second. Likewise `read (0, 0x08048fff,
2)` is invoked, stores its first byte and faults storing the second. In general `check_buffer`
returns, without a look at the page table, for every buffer whose bytes lie in the user region. -/
theorem buffer_into_unmapped_page_accepted :
    present pintos write_across_pages 0x08048fff = true ∧
    present pintos write_across_pages 0x08049000 = false ∧
    ((do check_page_fault pintos 0x08048fff; check_buffer pintos 0x08048fff 2 : K Unit)
        write_across_pages).stopped = none ∧
    (syscall_handler pintos (frame_at 0xbfffff00) write_across_pages).stopped =
      some (Stop.fault 0x08049000) ∧
    (syscall_handler pintos (frame_at 0xbfffff00) write_across_pages).world.trace =
      [Event.call "malloc" [12], Event.load 0xbfffff00 4,
       Event.load 0xbfffff04 4, Event.store 0xc0100000 4,
       Event.load 0xbfffff08 4, Event.store 0xc0100004 4,
       Event.load 0xbfffff0c 4, Event.store 0xc0100008 4,
       Event.load 0xc0100004 4, Event.pagedir_get_page 0x08048fff,
       Event.load 0xc0100004 4, Event.load 0xc0100008 4,
       Event.load 0xc0100000 4, Event.load 0xc0100004 4, Event.load 0xc0100008 4,
       Event.putbuf [104]] ∧
    (syscall_handler pintos (frame_at 0xbfffff00) read_across_pages).stopped =
      some (Stop.fault 0x08049000) ∧
    (syscall_handler pintos (frame_at 0xbfffff00) read_across_pages).world.trace =
      [Event.call "malloc" [12], Event.load 0xbfffff00 4,
       Event.load 0xbfffff04 4, Event.store 0xc0100000 4,
       Event.load 0xbfffff08 4, Event.store 0xc0100004 4,
       Event.load 0xbfffff0c 4, Event.store 0xc0100008 4,
       Event.load 0xc0100004 4, Event.pagedir_get_page 0x08048fff,
       Event.load 0xc0100004 4, Event.load 0xc0100008 4,
       Event.load 0xc0100000 4, Event.load 0xc0100004 4, Event.load 0xc0100008 4,
       Event.call "input_getc" [], Event.store 0x08048fff 1,
       Event.call "input_getc" [], Event.store 0x08049000 1] ∧
    (∀ (k : Env) (buf size : Nat) (w : World), buf < 2 ^ 32 →
      (∀ i, i < size →
        USER_BOTTOM_ADDR ≤ (buf + i) % 2 ^ 32 ∧ (buf + i) % 2 ^ 32 < k.PHYS_BASE) →
      check_buffer k buf size w = Outcome.ret () w) := by
  refine ⟨by decide, by decide, by decide, by decide, by decide, by decide, by decide, ?_⟩
  intro k buf size w hb h
  exact check_buffer_loop_region k size buf w hb h

/-- C5 (the code does not do this): `check_string` has an empty body, so only the first byte of
a string argument is checked (by `check_page_fault`). For a string that starts with the last
byte of the mapped code page and runs into the unmapped page after it, `open` and `exec` are
invoked on the string: the handler reaches `filesys_open`, resp. `process_execute`, and returns
to the user instead of terminating the process. -/
theorem string_into_unmapped_page_accepted :
    (∀ str w, check_string str w = Outcome.ret () w) ∧
    present pintos (string_across_pages 6) 0x08048fff = true ∧
    (string_across_pages 6).mem 0x08048fff = 97 ∧
    present pintos (string_across_pages 6) 0x08049000 = false ∧
    (syscall_handler pintos (frame_at 0xbfffff00) (string_across_pages 6)).value =
      some { eax := 0xffffffff, esp := 0xbfffff00, regs := [1, 2, 3] } ∧
    (syscall_handler pintos (frame_at 0xbfffff00) (string_across_pages 6)).world.trace =
      [Event.call "malloc" [12], Event.load 0xbfffff00 4,
       Event.load 0xbfffff04 4, Event.store 0xc0100000 4,
       Event.load 0xc0100000 4, Event.pagedir_get_page 0x08048fff,
       Event.load 0xc0100000 4, Event.load 0xc0100000 4,
       Event.lock_acquire, Event.call "filesys_open" [0x08048fff], Event.lock_release] ∧
    (syscall_handler pintos (frame_at 0xbfffff00) (string_across_pages 2)).value =
      some { eax := 0xffffffff, esp := 0xbfffff00, regs := [1, 2, 3] } ∧
    (syscall_handler pintos (frame_at 0xbfffff00) (string_across_pages 2)).world.trace =
      [Event.call "malloc" [12], Event.load 0xbfffff00 4,
       Event.load 0xbfffff04 4, Event.store 0xc0100000 4,
       Event.load 0xc0100000 4, Event.pagedir_get_page 0x08048fff,
       Event.load 0xc0100000 4, Event.load 0xc0100000 4,
       Event.call "process_execute" [0x08048fff], Event.call "get_child_process" [0]] := by
  refine ⟨fun _ _ => rfl, ?_⟩
  decide

/-- Entered without the lock, `remove` acquires twice and releases nothing. -/
theorem remove_trace (k : Env) (file_name : Nat) (w : World) (h : w.file_lock_held = false) :
    (remove k file_name w).world.trace =
      w.trace ++
        [Event.lock_acquire, Event.call "filesys_remove" [file_name], Event.lock_acquire] := by
  cases h2 : (k.effect "filesys_remove" [file_name]
      { w with trace := w.trace ++ [Event.lock_acquire], file_lock_held := true }).file_lock_held with
  | true => simp [remove, bind, K.bind, lock_acquire, h, h2, call, Outcome.world]
  | false => simp [remove, bind, K.bind, lock_acquire, h, h2, call, Outcome.world, pure, K.pure]

/-- The thread holds `file_lock` wherever `remove` ends. -/
theorem remove_lock_held (k : Env) (file_name : Nat) (w : World) :
    (remove k file_name w).world.file_lock_held = true := by
  cases h : w.file_lock_held with
  | true => simp [remove, bind, K.bind, lock_acquire, h, Outcome.world]
  | false =>
    cases h2 : (k.effect "filesys_remove" [file_name]
        { w with trace := w.trace ++ [Event.lock_acquire], file_lock_held := true }).file_lock_held with
    | true => simp [remove, bind, K.bind, lock_acquire, h, h2, call, Outcome.world]
    | false => simp [remove, bind, K.bind, lock_acquire, h, h2, call, Outcome.world, pure, K.pure]

/-- C6 (the code does not do this): `remove` calls `lock_acquire` a second time where its
siblings call `lock_release`. Entered without the lock, it acquires it, calls `filesys_remove`,
and acquires it again: it never gets past that call and the lock is still held; `file_lock` is
never released by `remove`, whatever the collaborators do. `create`, on the same input, releases
the lock. -/
theorem remove_acquires_twice :
    (string_in_page 5).file_lock_held = false ∧
    (remove pintos 0x08048000 (string_in_page 5)).stopped = some Stop.relock ∧
    (remove pintos 0x08048000 (string_in_page 5)).world.trace =
      [Event.lock_acquire, Event.call "filesys_remove" [0x08048000], Event.lock_acquire] ∧
    (remove pintos 0x08048000 (string_in_page 5)).world.file_lock_held = true ∧
    (∀ (k : Env) (file_name : Nat) (w : World),
      (remove k file_name w).world.file_lock_held = true) ∧
    (∀ (k : Env) (file_name : Nat) (w : World), w.file_lock_held = false →
      (remove k file_name w).world.trace =
        w.trace ++
          [Event.lock_acquire, Event.call "filesys_remove" [file_name], Event.lock_acquire]) ∧
    (create pintos 0x08048000 0 (string_in_page 5)).world.trace =
      [Event.lock_acquire, Event.call "filesys_create" [0x08048000, 0], Event.lock_release] ∧
    (create pintos 0x08048000 0 (string_in_page 5)).world.file_lock_held = false := by
  refine ⟨by decide, by decide, by decide, by decide, remove_lock_held, remove_trace,
    by decide, by decide⟩

/-- C9 (the code does not do this for `remove`): for the system call `remove` with a valid file
name, every check passes, `remove` is entered and never returns (its second `lock_acquire`), so
the handler does not return and `eax` never receives a result. On the same machine the handler
returns for `create` (result `false`, `eax = 0`), for `write (1, "hi", 2)` (`eax = 2`) and for
`tell` of an unknown descriptor (`eax = 0xffffffff`), and it leaves the frame as it was for
`close` and for a number that is no system call; the other saved registers are as before. -/
theorem syscall_handler_remove_no_result :
    (syscall_handler pintos (frame_at 0xbfffff00) (string_in_page 5)).value = none ∧
    (syscall_handler pintos (frame_at 0xbfffff00) (string_in_page 5)).stopped =
      some Stop.relock ∧
    (syscall_handler pintos (frame_at 0xbfffff00) (string_in_page 5)).world.trace =
      [Event.call "malloc" [12], Event.load 0xbfffff00 4,
       Event.load 0xbfffff04 4, Event.store 0xc0100000 4,
       Event.load 0xc0100000 4, Event.pagedir_get_page 0x08048000,
       Event.load 0xc0100000 4, Event.load 0xc0100000 4,
       Event.lock_acquire, Event.call "filesys_remove" [0x08048000], Event.lock_acquire] ∧
    (syscall_handler pintos (frame_at 0xbfffff00) (string_in_page 4)).value =
      some { eax := 0, esp := 0xbfffff00, regs := [1, 2, 3] } ∧
    (syscall_handler pintos (frame_at 0xbfffff00) write_hi).value =
      some { eax := 2, esp := 0xbfffff00, regs := [1, 2, 3] } ∧
    (syscall_handler pintos (frame_at 0xbfffff00) (string_in_page 11)).value =
      some { eax := 0xffffffff, esp := 0xbfffff00, regs := [1, 2, 3] } ∧
    (syscall_handler pintos (frame_at 0xbfffff00) (string_in_page 12)).value =
      some (frame_at 0xbfffff00) ∧
    (syscall_handler pintos (frame_at 0xbfffff00) (string_in_page 77)).value =
      some (frame_at 0xbfffff00) := by
  decide

/-- `exec` when `get_child_process` finds no record. -/
theorem exec_none (k : Env) (cmd_line : Nat) (w : World)
    (h : (exec_lookup k cmd_line w).value = some none) :
    exec k cmd_line w = .ret ERROR_CODE (exec_lookup k cmd_line w).world := by
  simp only [exec_lookup, exec, bind, K.bind, call, get_child_process, Outcome.value,
    Outcome.world, Option.some.injEq] at h ⊢
  rw [h]
  rfl

/-- `exec` when `get_child_process` finds the record `r`. -/
theorem exec_some (k : Env) (cmd_line : Nat) (w : World) (r : Nat)
    (h : (exec_lookup k cmd_line w).value = some (some r)) :
    exec k cmd_line w =
      (if ((exec_lookup k cmd_line w).world.records r).load_status = load_state.NOT_LOADED then
        (if ((exec_woken k cmd_line w r).records r).load_status = load_state.LOAD_FAIL then
          .ret ERROR_CODE (remove_child_process r (exec_woken k cmd_line w r)).world
         else .ret (exec_pid k cmd_line w) (exec_woken k cmd_line w r))
       else
        (if ((exec_lookup k cmd_line w).world.records r).load_status = load_state.LOAD_FAIL then
          .ret ERROR_CODE (remove_child_process r (exec_lookup k cmd_line w).world).world
         else .ret (exec_pid k cmd_line w) (exec_lookup k cmd_line w).world)) := by
  simp only [exec_lookup, exec_woken, exec_pid, exec, bind, K.bind, call, get_child_process,
    Outcome.value, Outcome.world, Option.some.injEq] at h ⊢
  rw [h]
  split <;> split <;> rename_i h1 h2 <;>
    simp only [List.append_assoc, List.singleton_append, List.cons_append, List.nil_append]
      at h1 h2 ⊢ <;>
    simp [K.bind, thread_current, pure, K.pure, call, remove_child_process, h1, h2]

/-- The record `get_child_process` finds is in the registry. -/
theorem exec_lookup_mem (k : Env) (cmd_line : Nat) (w : World) (r : Nat)
    (h : (exec_lookup k cmd_line w).value = some (some r)) :
    r ∈ (exec_lookup k cmd_line w).world.children := by
  simp only [exec_lookup, bind, K.bind, call, get_child_process, Outcome.value, Outcome.world,
    Option.some.injEq] at h ⊢
  exact List.mem_of_find?_eq_some h

/-- What `remove_child_process` leaves. -/
theorem remove_child_process_world (r : Nat) (w : World) :
    r ∉ (remove_child_process r w).world.children ∧
    (remove_child_process r w).world.children = w.children.filter (fun p => decide (p ≠ r)) ∧
    (remove_child_process r w).world.trace =
      w.trace ++ [Event.call "remove_child_process" [r]] := by
  simp [remove_child_process, Outcome.world]

/-- The first two statements of `exec` always return. -/
theorem exec_lookup_value (k : Env) (cmd_line : Nat) (w : World) :
    ∃ found, (exec_lookup k cmd_line w).value = some found := by
  simp [exec_lookup, bind, K.bind, call, get_child_process, Outcome.value]

/-- `exec` returns in every case (given that `sema_down` does). -/
theorem exec_returns (k : Env) (cmd_line : Nat) (w : World) :
    (exec k cmd_line w).stopped = none := by
  obtain ⟨found, h⟩ := exec_lookup_value k cmd_line w
  cases found with
  | none => rw [exec_none k cmd_line w h]; rfl
  | some r =>
    rw [exec_some k cmd_line w r h]
    split <;> split <;> rfl

/-- C7: for every command line, `exec` returns. With `pid` the value `process_execute` returns
and `r` the record `get_child_process (pid)` finds in the registry of the caller: `exec` returns
-1 when there is no such record. When
the load status of `r` is `LOAD_FAIL` as `exec` inspects it, either already before the blocking
wait (then `exec` does not call `sema_down`) or after it woke up from `sema_down`, `exec` removes
`r` from the registry and returns -1. When the load status is `LOAD_SUCCESS`, `exec` returns
`pid` and leaves the registry as it is, so `r` remains in it. -/
theorem exec_spec (k : Env) (cmd_line : Nat) (w : World) :
    (exec k cmd_line w).stopped = none ∧
    ((exec_lookup k cmd_line w).value = some none →
      exec k cmd_line w = .ret (-1) (exec_lookup k cmd_line w).world) ∧
    (∀ r, (exec_lookup k cmd_line w).value = some (some r) →
      r ∈ (exec_lookup k cmd_line w).world.children ∧
      (((exec_lookup k cmd_line w).world.records r).load_status = load_state.LOAD_FAIL →
        (exec k cmd_line w).value = some (-1) ∧
        r ∉ (exec k cmd_line w).world.children ∧
        (exec k cmd_line w).world.children =
          (exec_lookup k cmd_line w).world.children.filter (fun p => decide (p ≠ r)) ∧
        (exec k cmd_line w).world.trace =
          (exec_lookup k cmd_line w).world.trace ++ [Event.call "remove_child_process" [r]]) ∧
      (((exec_lookup k cmd_line w).world.records r).load_status = load_state.LOAD_SUCCESS →
        exec k cmd_line w = .ret (exec_pid k cmd_line w) (exec_lookup k cmd_line w).world ∧
        r ∈ (exec k cmd_line w).world.children) ∧
      (((exec_lookup k cmd_line w).world.records r).load_status = load_state.NOT_LOADED →
        (((exec_woken k cmd_line w r).records r).load_status = load_state.LOAD_FAIL →
          (exec k cmd_line w).value = some (-1) ∧
          r ∉ (exec k cmd_line w).world.children ∧
          (exec k cmd_line w).world.children =
            (exec_woken k cmd_line w r).children.filter (fun p => decide (p ≠ r)) ∧
          (exec k cmd_line w).world.trace =
            (exec_lookup k cmd_line w).world.trace ++
              [Event.call "sema_down" [r], Event.call "remove_child_process" [r]]) ∧
        (((exec_woken k cmd_line w r).records r).load_status = load_state.LOAD_SUCCESS →
          exec k cmd_line w = .ret (exec_pid k cmd_line w) (exec_woken k cmd_line w r) ∧
          (exec k cmd_line w).world.children = (exec_woken k cmd_line w r).children ∧
          (exec k cmd_line w).world.trace =
            (exec_lookup k cmd_line w).world.trace ++ [Event.call "sema_down" [r]]))) := by
  refine ⟨exec_returns k cmd_line w, fun h => exec_none k cmd_line w h,
    fun r h => ⟨exec_lookup_mem k cmd_line w r h, ?_, ?_, ?_⟩⟩
  · intro hf
    have e := exec_some k cmd_line w r h
    rw [hf] at e
    simp only [reduceCtorEq, if_false, if_true] at e
    rw [e]
    exact ⟨rfl, remove_child_process_world r _⟩
  · intro hs
    have e := exec_some k cmd_line w r h
    rw [hs] at e
    simp only [reduceCtorEq, if_false] at e
    rw [e]
    exact ⟨rfl, exec_lookup_mem k cmd_line w r h⟩
  · intro hn
    have e := exec_some k cmd_line w r h
    rw [hn] at e
    simp only [if_true] at e
    refine ⟨?_, ?_⟩
    · intro hf
      rw [hf] at e
      simp only [if_true] at e
      rw [e]
      refine ⟨rfl, (remove_child_process_world r _).1, (remove_child_process_world r _).2.1, ?_⟩
      show (remove_child_process r (exec_woken k cmd_line w r)).world.trace = _
      rw [(remove_child_process_world r _).2.2]
      simp [exec_woken, call, Outcome.world]
    · intro hs
      rw [hs] at e
      simp only [reduceCtorEq, if_false] at e
      rw [e]
      refine ⟨rfl, rfl, ?_⟩
      simp [exec_woken, call, Outcome.world]

/-- C7, on concrete machines: the loader collaborator creates the record of pid 3, not yet
loaded. When the child reports `LOAD_FAIL` while `exec` sleeps, `exec` returns -1 and the registry
is empty again; when it reports `LOAD_SUCCESS`, `exec` returns 3 and the record stays. Without
any record (`pintos`), `exec` returns -1. -/
theorem exec_spec_witness :
    (exec (pintos_loader load_state.LOAD_FAIL) 0x08048000 (string_in_page 2)).value =
      some (-1) ∧
    (exec (pintos_loader load_state.LOAD_FAIL) 0x08048000 (string_in_page 2)).world.children =
      [] ∧
    (exec (pintos_loader load_state.LOAD_SUCCESS) 0x08048000 (string_in_page 2)).value =
      some 3 ∧
    (exec (pintos_loader load_state.LOAD_SUCCESS) 0x08048000 (string_in_page 2)).world.children =
      [0xc0300000] ∧
    (exec (pintos_loader load_state.LOAD_SUCCESS) 0x08048000 (string_in_page 2)).world.trace =
      [Event.call "process_execute" [0x08048000], Event.call "get_child_process" [3],
       Event.call "sema_down" [0xc0300000]] ∧
    exec pintos 0x08048000 (string_in_page 2) =
      .ret (-1) (exec_lookup pintos 0x08048000 (string_in_page 2)).world :=
  ⟨by decide, by decide, by decide, by decide, by decide,
   (exec_spec pintos 0x08048000 (string_in_page 2)).2.1 (by decide)⟩

/-- The bytes `putbuf` reads when every byte of the buffer is present. -/
theorem read_buffer_present (k : Env) (w : World) (n : Nat) :
    ∀ a, a < 2 ^ 32 → (∀ i, i < n → present k w ((a + i) % 2 ^ 32) = true) →
      read_buffer k w n a =
        ((List.range n).map (fun i => w.mem ((a + i) % 2 ^ 32) % 256), none) := by
  induction n with
  | zero => intro a _ _; rfl
  | succ n ih =>
    intro a ha h
    have h0 : present k w a = true := by
      have := h 0 (Nat.succ_pos n)
      rwa [Nat.add_zero, Nat.mod_eq_of_lt ha] at this
    have hstep : ∀ i, ((a + 1) % 2 ^ 32 + i) % 2 ^ 32 = (a + (i + 1)) % 2 ^ 32 := by
      intro i; omega
    have hrec := ih ((a + 1) % 2 ^ 32) (Nat.mod_lt _ (by norm_num)) (by
      intro i hi
      rw [hstep]
      exact h (i + 1) (Nat.succ_lt_succ hi))
    simp only [read_buffer, h0, if_true, hrec, List.range_succ_eq_map, List.map_cons, List.map_map]
    have ha0 : (a + 0) % 2 ^ 32 = a := by rw [Nat.add_zero, Nat.mod_eq_of_lt ha]
    rw [ha0]
    congr 2
    apply List.map_congr_left
    intro i _
    simp only [Function.comp, hstep]

/-- `write` to the console, in one equation. -/
theorem write_stdout_eq (k : Env) (w : World) (buf n : Nat) (hbuf : buf < 2 ^ 32)
    (hread : ∀ i, i < n → present k w ((buf + i) % 2 ^ 32) = true) :
    write k STDOUT_FILENO buf n w =
      .ret (to_int n)
        { w with trace := w.trace ++
            [Event.putbuf ((List.range n).map (fun i => w.mem ((buf + i) % 2 ^ 32) % 256))] } := by
  simp [write, bind, K.bind, pure, K.pure, putbuf, read_buffer_present k w n buf hbuf hread]

/-- Sizes below `2 ^ 31` are themselves as an `int`. -/
theorem to_int_small (n : Nat) (h : n < 2 ^ 31) : to_int n = (n : Int) := by
  have h2 : n % 2 ^ 32 = n := Nat.mod_eq_of_lt (by omega)
  unfold to_int
  rw [h2, if_pos h]

/-- Sizes from `2 ^ 31` on are negative as an `int`. -/
theorem to_int_large (n : Nat) (h : 2 ^ 31 ≤ n) (h32 : n < 2 ^ 32) :
    to_int n = (n : Int) - 2 ^ 32 := by
  have h2 : n % 2 ^ 32 = n := Nat.mod_eq_of_lt h32
  have h3 : ¬ n < 2 ^ 31 := by omega
  unfold to_int
  rw [h2, if_neg h3]

/-- Converting a size to `int` and back to `uint32_t` gives the size. -/
theorem to_unsigned_to_int (n : Nat) (h32 : n < 2 ^ 32) : to_unsigned (to_int n) = n := by
  unfold to_unsigned to_int
  have h2 : n % 2 ^ 32 = n := Nat.mod_eq_of_lt h32
  rw [h2]
  split <;> omega

/-- C10 (the code does not do this): `write (1, buf, n)` hands `buf` to `putbuf` as it is, and
the validation before it has let through a buffer that is not readable to its end (the defect of
C4). For the system call `write (1, 0x08048fff, 2)`, whose buffer starts with the last byte
`'h'` of the mapped code page and ends in the unmapped page after it, the handler reaches `write`,
one byte instead of two is appended to the console, the kernel faults on the second byte, and
neither `write` nor the handler returns: no value 2 is returned and `eax` is not written. On the
pattern of this input: whenever the first byte of a two-byte buffer is present and the second is
not, `write (1, buf, 2)` emits that one byte and faults. Where the whole buffer is readable
`write` does what the claim says, for every size below `2 ^ 31`: it returns `n` after one
`putbuf` call with exactly the bytes `buf[0..n)`, and nothing else happens, so `file_lock` and
the descriptor table are untouched; `write (1, "hi", 2)` returns 2, emits `'h'`, `'i'`, and the
handler stores 2 in `eax`. -/
theorem write_stdout_unreadable_tail :
    present pintos write_across_pages 0x08048fff = true ∧
    present pintos write_across_pages 0x08049000 = false ∧
    (write pintos STDOUT_FILENO 0x08048fff 2 write_across_pages).value = none ∧
    (write pintos STDOUT_FILENO 0x08048fff 2 write_across_pages).stopped =
      some (Stop.fault 0x08049000) ∧
    (write pintos STDOUT_FILENO 0x08048fff 2 write_across_pages).world.trace =
      [Event.putbuf [104]] ∧
    (syscall_handler pintos (frame_at 0xbfffff00) write_across_pages).value = none ∧
    (syscall_handler pintos (frame_at 0xbfffff00) write_across_pages).stopped =
      some (Stop.fault 0x08049000) ∧
    (syscall_handler pintos (frame_at 0xbfffff00) write_across_pages).world.trace =
      [Event.call "malloc" [12], Event.load 0xbfffff00 4,
       Event.load 0xbfffff04 4, Event.store 0xc0100000 4,
       Event.load 0xbfffff08 4, Event.store 0xc0100004 4,
       Event.load 0xbfffff0c 4, Event.store 0xc0100008 4,
       Event.load 0xc0100004 4, Event.pagedir_get_page 0x08048fff,
       Event.load 0xc0100004 4, Event.load 0xc0100008 4,
       Event.load 0xc0100000 4, Event.load 0xc0100004 4, Event.load 0xc0100008 4,
       Event.putbuf [104]] ∧
    (∀ (k : Env) (w : World) (buf : Nat), present k w buf = true →
      present k w ((buf + 1) % 2 ^ 32) = false →
      write k STDOUT_FILENO buf 2 w =
        .stop (Stop.fault ((buf + 1) % 2 ^ 32))
          { w with trace := w.trace ++ [Event.putbuf [w.mem buf % 256]] }) ∧
    (∀ (k : Env) (w : World) (buf n : Nat), buf < 2 ^ 32 → n < 2 ^ 31 →
      (∀ i, i < n → present k w ((buf + i) % 2 ^ 32) = true) →
      write k STDOUT_FILENO buf n w =
        .ret (n : Int)
          { w with trace := w.trace ++
              [Event.putbuf ((List.range n).map (fun i => w.mem ((buf + i) % 2 ^ 32) % 256))] }) ∧
    (write pintos STDOUT_FILENO 0x08048000 2 hi_machine).value = some 2 ∧
    (write pintos STDOUT_FILENO 0x08048000 2 hi_machine).world.trace =
      [Event.putbuf [104, 105]] ∧
    (write pintos STDOUT_FILENO 0x08048000 2 hi_machine).world.file_lock_held = false ∧
    (syscall_handler pintos (frame_at 0xbfffff00) write_hi).value =
      some { eax := 2, esp := 0xbfffff00, regs := [1, 2, 3] } := by
  refine ⟨by decide, by decide, by decide, by decide, by decide, by decide, by decide,
    by decide, ?_, ?_, by decide, by decide, by decide, by decide⟩
  · intro k w buf h0 h1
    have h1' : present k w ((buf + 1) % 4294967296) = false := h1
    simp [write, bind, K.bind, pure, K.pure, putbuf, read_buffer, h0, h1']
  · intro k w buf n hbuf hn hread
    rw [write_stdout_eq k w buf n hbuf hread, to_int_small n hn]

end Pintos
